import Mathlib

/-!
Shallow embedding of the InfoTrade marketplace contracts.

Two contract variants are modelled:

* namespace `InfoTrade` — the escrow variant in `src/contracts/InfoTrade.sol`
  (`uploadInfo`, `requestPurchase`, `grantAccess`, `denyAccess`,
  `deactivateInfo`, `getEncryptedInfo`, `withdrawPlatformFees`).
* namespace `InfoTradeV2` — the plaintext-price variant (the second contract in
  `src/contracts/StringAddressUtils.sol`: `createInfo`, `purchaseInfo`,
  `grantAccess`, `updatePrice`, `deactivateInfo`, `getInfoContent`,
  `getEncryptedOwner`).

Addresses and wei amounts are modelled as `Nat` (the zero address is `0`).
FHE ciphertext handles are opaque: a handle is a `Nat`, and the external
`FHE.fromExternal` conversion is the identity on the supplied handle; the
FHE access-control list calls (`FHE.allow`, `FHE.allowThis`) have no
on-chain observable state in the contract and are not modelled.
Each external entry point is a function `State → args → Except String State`;
`.error msg` models `revert(msg)` (the pre-state is kept), `.ok s'` models a
successful, atomically committed call.  `msg.value` is an explicit `value`
argument and `block.timestamp` an explicit `time` argument.  Outgoing ETH
transfers are recorded in a `payouts` map (cumulative wei sent to each
address), and `contractBalance` models `address(this).balance`.
-/

/-- Pointwise update of a one-key mapping, modelling `m[k] = v`. -/
def upd {α : Type} (f : Nat → α) (k : Nat) (v : α) : Nat → α :=
  fun x => if x = k then v else f x

/-- Pointwise update of a two-key mapping, modelling `m[k1][k2] = v`. -/
def upd2 {α : Type} (f : Nat → Nat → α) (k1 k2 : Nat) (v : α) : Nat → Nat → α :=
  fun x y => if x = k1 ∧ y = k2 then v else f x y

namespace InfoTrade

/-- `struct InfoItem` of `src/contracts/InfoTrade.sol`. -/
structure InfoItem where
  encryptedInfo : Nat
  seller : Nat
  price : Nat
  isActive : Bool
  createdAt : Nat

/-- Default storage value of an `InfoItem` slot (all fields zeroed). -/
def emptyItem : InfoItem :=
  { encryptedInfo := 0, seller := 0, price := 0, isActive := false, createdAt := 0 }

/-- `struct PurchaseRequest` of `src/contracts/InfoTrade.sol`. -/
structure PurchaseRequest where
  infoId : Nat
  buyer : Nat
  timestamp : Nat
  isPending : Bool
  isApproved : Bool

/-- Default storage value of a `PurchaseRequest` slot. -/
def emptyRequest : PurchaseRequest :=
  { infoId := 0, buyer := 0, timestamp := 0, isPending := false, isApproved := false }

/-- Contract storage of the escrow variant, together with the ETH balance of
the contract and a record of outgoing transfers.  The two fields marked
`ghost` are not contract storage: they are history bookkeeping used only to
state conservation properties (no operation's behaviour reads them).
`requestedPairs` lists every `(infoId, buyer)` pair for which a purchase
request was ever created, without duplicates; `totalSurplus` accumulates
`msg.value - price` over all accepted `requestPurchase` calls. -/
structure State where
  infoItems : Nat → InfoItem
  purchaseRequests : Nat → Nat → PurchaseRequest
  purchaseRequestsList : Nat → List Nat
  sellerInfos : Nat → List Nat
  buyerRequests : Nat → List Nat
  nextInfoId : Nat
  owner : Nat
  platformBalance : Nat
  contractBalance : Nat
  payouts : Nat → Nat
  requestedPairs : List (Nat × Nat)
  totalSurplus : Nat

/-- `PLATFORM_FEE_PERCENT = 2`. -/
def PLATFORM_FEE_PERCENT : Nat := 2

/-- The constructor: `owner = msg.sender; nextInfoId = 1`. -/
def initState (deployer : Nat) : State :=
  { infoItems := fun _ => emptyItem
    purchaseRequests := fun _ _ => emptyRequest
    purchaseRequestsList := fun _ => []
    sellerInfos := fun _ => []
    buyerRequests := fun _ => []
    nextInfoId := 1
    owner := deployer
    platformBalance := 0
    contractBalance := 0
    payouts := fun _ => 0
    requestedPairs := []
    totalSurplus := 0 }

/-- Modifier `infoExists`: `_infoId < nextInfoId && infoItems[_infoId].seller != address(0)`. -/
def infoExists (s : State) (infoId : Nat) : Prop :=
  infoId < s.nextInfoId ∧ (s.infoItems infoId).seller ≠ 0

instance (s : State) (infoId : Nat) : Decidable (infoExists s infoId) := by
  unfold infoExists; infer_instance

/-- `payable(recipient).transfer(amount)`: moves `amount` wei out of the
contract; fails (reverting the whole call) if the contract balance is
insufficient. -/
def transfer (s : State) (recipient amount : Nat) : Except String State :=
  if amount ≤ s.contractBalance then
    .ok { s with
            contractBalance := s.contractBalance - amount
            payouts := upd s.payouts recipient (s.payouts recipient + amount) }
  else .error "transfer amount exceeds balance"

/-- Successful-path state change of `uploadInfo`. -/
def uploadApply (s : State) (sender encInfo price time : Nat) : State :=
  { s with
      infoItems := upd s.infoItems s.nextInfoId
        { encryptedInfo := encInfo, seller := sender, price := price,
          isActive := true, createdAt := time }
      sellerInfos := upd s.sellerInfos sender (s.sellerInfos sender ++ [s.nextInfoId])
      nextInfoId := s.nextInfoId + 1 }

/-- `uploadInfo(encryptedInfo, inputProof, price)`; the input-proof check is
performed by the external FHE service and always succeeds in this model. -/
def uploadInfo (s : State) (sender encInfo price time : Nat) : Except String State :=
  if price = 0 then .error "Price must be greater than 0"
  else .ok (uploadApply s sender encInfo price time)

/-- Successful-path state change of `requestPurchase` (the escrowed
`msg.value` is credited to the contract balance).  The last two field
updates are the ghost history bookkeeping. -/
def requestApply (s : State) (sender value infoId time : Nat) : State :=
  { s with
      purchaseRequests := upd2 s.purchaseRequests infoId sender
        { infoId := infoId, buyer := sender, timestamp := time,
          isPending := true, isApproved := false }
      purchaseRequestsList := upd s.purchaseRequestsList infoId
        (s.purchaseRequestsList infoId ++ [sender])
      buyerRequests := upd s.buyerRequests sender (s.buyerRequests sender ++ [infoId])
      contractBalance := s.contractBalance + value
      requestedPairs :=
        if (infoId, sender) ∈ s.requestedPairs then s.requestedPairs
        else s.requestedPairs ++ [(infoId, sender)]
      totalSurplus := s.totalSurplus + (value - (s.infoItems infoId).price) }

/-- `requestPurchase(infoId)` with `msg.value = value`. -/
def requestPurchase (s : State) (sender value infoId time : Nat) : Except String State :=
  if ¬ infoExists s infoId then .error "Info does not exist"
  else if (s.infoItems infoId).isActive = false then .error "Info is not active"
  else if sender = (s.infoItems infoId).seller then .error "Cannot purchase own info"
  else if value < (s.infoItems infoId).price then .error "Insufficient payment"
  else if (s.purchaseRequests infoId sender).isPending = true then
    .error "Purchase already pending"
  else if (s.purchaseRequests infoId sender).isApproved = true then
    .error "Already have access"
  else .ok (requestApply s sender value infoId time)

/-- State change of `grantAccess` before the seller payout: the request is
marked approved and the platform fee is retained. -/
def grantApply (s : State) (infoId buyer : Nat) : State :=
  { s with
      purchaseRequests := upd2 s.purchaseRequests infoId buyer
        { s.purchaseRequests infoId buyer with isPending := false, isApproved := true }
      platformBalance :=
        s.platformBalance + (s.infoItems infoId).price * PLATFORM_FEE_PERCENT / 100 }

/-- `grantAccess(infoId, buyer)`: fee retained, `price - fee` transferred to
the seller (`msg.sender`). -/
def grantAccess (s : State) (sender infoId buyer : Nat) : Except String State :=
  if ¬ (s.infoItems infoId).seller = sender then
    .error "Only info seller can call this function"
  else if ¬ infoExists s infoId then .error "Info does not exist"
  else if ¬ (s.purchaseRequests infoId buyer).isPending = true then
    .error "No pending request from this buyer"
  else
    transfer (grantApply s infoId buyer) sender
      ((s.infoItems infoId).price
        - (s.infoItems infoId).price * PLATFORM_FEE_PERCENT / 100)

/-- State change of `denyAccess` before the refund: the request is resolved
unapproved. -/
def denyApply (s : State) (infoId buyer : Nat) : State :=
  { s with
      purchaseRequests := upd2 s.purchaseRequests infoId buyer
        { s.purchaseRequests infoId buyer with isPending := false, isApproved := false } }

/-- `denyAccess(infoId, buyer)`: the request is resolved unapproved and
`item.price` is transferred back to the buyer. -/
def denyAccess (s : State) (sender infoId buyer : Nat) : Except String State :=
  if ¬ (s.infoItems infoId).seller = sender then
    .error "Only info seller can call this function"
  else if ¬ infoExists s infoId then .error "Info does not exist"
  else if ¬ (s.purchaseRequests infoId buyer).isPending = true then
    .error "No pending request from this buyer"
  else transfer (denyApply s infoId buyer) buyer (s.infoItems infoId).price

/-- Successful-path state change of `deactivateInfo`. -/
def deactivateApply (s : State) (infoId : Nat) : State :=
  { s with
      infoItems := upd s.infoItems infoId
        { s.infoItems infoId with isActive := false } }

/-- `deactivateInfo(infoId)`. -/
def deactivateInfo (s : State) (sender infoId : Nat) : Except String State :=
  if ¬ (s.infoItems infoId).seller = sender then
    .error "Only info seller can call this function"
  else if ¬ infoExists s infoId then .error "Info does not exist"
  else .ok (deactivateApply s infoId)

/-- `withdrawPlatformFees()`. -/
def withdrawPlatformFees (s : State) (sender : Nat) : Except String State :=
  if ¬ sender = s.owner then .error "Only owner can call this function"
  else if s.platformBalance = 0 then .error "No fees to withdraw"
  else transfer { s with platformBalance := 0 } s.owner s.platformBalance

/-- Post-state of a successful `grantAccess` (the `transfer` applied to
`grantApply`, spelled out). -/
def grantResult (s : State) (sender infoId buyer : Nat) : State :=
  { grantApply s infoId buyer with
      contractBalance := (grantApply s infoId buyer).contractBalance
        - ((s.infoItems infoId).price
            - (s.infoItems infoId).price * PLATFORM_FEE_PERCENT / 100)
      payouts := upd (grantApply s infoId buyer).payouts sender
        ((grantApply s infoId buyer).payouts sender
          + ((s.infoItems infoId).price
              - (s.infoItems infoId).price * PLATFORM_FEE_PERCENT / 100)) }

/-- Post-state of a successful `denyAccess` (the `transfer` applied to
`denyApply`, spelled out). -/
def denyResult (s : State) (infoId buyer : Nat) : State :=
  { denyApply s infoId buyer with
      contractBalance :=
        (denyApply s infoId buyer).contractBalance - (s.infoItems infoId).price
      payouts := upd (denyApply s infoId buyer).payouts buyer
        ((denyApply s infoId buyer).payouts buyer + (s.infoItems infoId).price) }

/-- Post-state of a successful `withdrawPlatformFees`. -/
def withdrawResult (s : State) : State :=
  { s with
      platformBalance := 0
      contractBalance := s.contractBalance - s.platformBalance
      payouts := upd s.payouts s.owner (s.payouts s.owner + s.platformBalance) }

/-- `getEncryptedInfo(infoId)` (view): note that the body never consults the
caller — the only guard is the `infoExists` modifier. -/
def getEncryptedInfo (s : State) (caller infoId : Nat) : Except String Nat :=
  if ¬ infoExists s infoId then .error "Info does not exist"
  else .ok (s.infoItems infoId).encryptedInfo

/-- One state-mutating external call to the escrow contract. -/
inductive Op where
  | uploadInfo (sender encInfo price time : Nat)
  | requestPurchase (sender value infoId time : Nat)
  | grantAccess (sender infoId buyer : Nat)
  | denyAccess (sender infoId buyer : Nat)
  | deactivateInfo (sender infoId : Nat)
  | withdrawPlatformFees (sender : Nat)

/-- Dispatch one call. -/
def step (s : State) : Op → Except String State
  | .uploadInfo sender encInfo price time => uploadInfo s sender encInfo price time
  | .requestPurchase sender value infoId time => requestPurchase s sender value infoId time
  | .grantAccess sender infoId buyer => grantAccess s sender infoId buyer
  | .denyAccess sender infoId buyer => denyAccess s sender infoId buyer
  | .deactivateInfo sender infoId => deactivateInfo s sender infoId
  | .withdrawPlatformFees sender => withdrawPlatformFees s sender

/-- Execute one call; a reverted call leaves the state unchanged. -/
def execOp (s : State) (op : Op) : State :=
  match step s op with
  | .ok s' => s'
  | .error _ => s

/-- Execute a sequence of calls in order. -/
def exec (s : State) : List Op → State
  | [] => s
  | op :: ops => exec (execOp s op) ops

/-- A state is reachable if some call sequence produces it from a freshly
deployed contract. -/
def Reachable (s : State) : Prop :=
  ∃ deployer ops, s = exec (initState deployer) ops

/-- Does `op` submit a new purchase request by `buyer` for item `infoId`? -/
def requestsPair : Op → Nat → Nat → Bool
  | .requestPurchase sender _ i _, infoId, buyer =>
    decide (sender = buyer) && decide (i = infoId)
  | _, _, _ => false

/-- Escrow contribution of one `(infoId, buyer)` pair: the item price while
the pair's request is pending, `0` otherwise. -/
def pendingTerm (s : State) (p : Nat × Nat) : Nat :=
  if (s.purchaseRequests p.1 p.2).isPending = true then (s.infoItems p.1).price else 0

/-- Total price-escrow currently pending, summed over every pair that ever
requested. -/
def pendingSum (s : State) : Nat :=
  (s.requestedPairs.map (pendingTerm s)).sum

/-- Inductive invariant of the escrow contract.  `conservation` is the money
statement: the contract's ETH balance is exactly the retained platform fees,
plus one item price per pending request, plus the accumulated overpayment
surplus — so no distribution ever draws on the surplus. -/
structure Inv (s : State) : Prop where
  nodup : s.requestedPairs.Nodup
  pairs_lt : ∀ p ∈ s.requestedPairs, p.1 < s.nextInfoId
  pending_mem : ∀ i b, (s.purchaseRequests i b).isPending = true →
    (i, b) ∈ s.requestedPairs
  mutex : ∀ i b, (s.purchaseRequests i b).isPending = true →
    (s.purchaseRequests i b).isApproved = false
  conservation : s.contractBalance = s.platformBalance + pendingSum s + s.totalSurplus

end InfoTrade

namespace InfoTradeV2

/-- `struct InfoItem` of the plaintext-price `InfoTrade` contract (the second
contract in `src/contracts/StringAddressUtils.sol`), including its two
per-address mappings. -/
structure InfoItem where
  title : String
  info : String
  encryptedOwner : Nat
  price : Nat
  isActive : Bool
  owner : Nat
  createdAt : Nat
  hasPurchased : Nat → Bool
  hasAccess : Nat → Bool

/-- Default storage value of an `InfoItem` slot. -/
def emptyItem : InfoItem :=
  { title := "", info := "", encryptedOwner := 0, price := 0, isActive := false,
    owner := 0, createdAt := 0, hasPurchased := fun _ => false,
    hasAccess := fun _ => false }

/-- Contract storage of the plaintext-price variant, plus a record of the
ETH forwarded to sellers (`purchaseInfo` forwards `msg.value` immediately,
so the contract itself holds no balance). -/
structure State where
  infoItems : Nat → InfoItem
  nextInfoId : Nat
  userInfoItems : Nat → List Nat
  userPurchases : Nat → List Nat
  payouts : Nat → Nat

/-- The constructor: `nextInfoId = 1`. -/
def initState : State :=
  { infoItems := fun _ => emptyItem
    nextInfoId := 1
    userInfoItems := fun _ => []
    userPurchases := fun _ => []
    payouts := fun _ => 0 }

/-- Guard `infoId < nextInfoId && infoId > 0` shared by most entry points. -/
def validId (s : State) (infoId : Nat) : Prop :=
  infoId < s.nextInfoId ∧ 0 < infoId

instance (s : State) (infoId : Nat) : Decidable (validId s infoId) := by
  unfold validId; infer_instance

/-- Successful-path state change of `createInfo`: a fresh id is allocated and
its (previously default) storage slot is filled; the creator is auto-granted
access (`newInfo.hasAccess[msg.sender] = true`). -/
def createApply (s : State) (sender : Nat) (title info : String)
    (encOwner price time : Nat) : State :=
  { s with
      infoItems := upd s.infoItems s.nextInfoId
        { title := title, info := info, encryptedOwner := encOwner, price := price,
          isActive := true, owner := sender, createdAt := time,
          hasPurchased := fun _ => false,
          hasAccess := upd (fun _ => false) sender true }
      nextInfoId := s.nextInfoId + 1
      userInfoItems := upd s.userInfoItems sender
        (s.userInfoItems sender ++ [s.nextInfoId]) }

/-- `createInfo(title, info, encryptedOwnerAddress, price, inputProof)`; the
source checks `bytes(title).length > 0`, i.e. nonemptiness. -/
def createInfo (s : State) (sender : Nat) (title info : String)
    (encOwner price time : Nat) : Except String State :=
  if title = "" then .error "Title cannot be empty"
  else if info = "" then .error "Info cannot be empty"
  else if price = 0 then .error "Price must be greater than 0"
  else .ok (createApply s sender title info encOwner price time)

/-- Successful-path state change of `purchaseInfo`: marks the purchase and
forwards the full `msg.value` to the seller at once. -/
def purchaseApply (s : State) (sender value infoId : Nat) : State :=
  { s with
      infoItems := upd s.infoItems infoId
        { s.infoItems infoId with
            hasPurchased := upd (s.infoItems infoId).hasPurchased sender true }
      userPurchases := upd s.userPurchases sender (s.userPurchases sender ++ [infoId])
      payouts := upd s.payouts (s.infoItems infoId).owner
        (s.payouts (s.infoItems infoId).owner + value) }

/-- `purchaseInfo(infoId)` with `msg.value = value`. -/
def purchaseInfo (s : State) (sender value infoId : Nat) : Except String State :=
  if ¬ validId s infoId then .error "Invalid info ID"
  else if (s.infoItems infoId).isActive = false then .error "Info is not active"
  else if (s.infoItems infoId).owner = sender then .error "Cannot purchase your own info"
  else if (s.infoItems infoId).hasPurchased sender = true then .error "Already purchased"
  else if value < (s.infoItems infoId).price then .error "Insufficient payment"
  else .ok (purchaseApply s sender value infoId)

/-- Successful-path state change of `grantAccess`. -/
def grantApply (s : State) (infoId buyer : Nat) : State :=
  { s with
      infoItems := upd s.infoItems infoId
        { s.infoItems infoId with
            hasAccess := upd (s.infoItems infoId).hasAccess buyer true } }

/-- `grantAccess(infoId, buyer)` of the plaintext-price variant. -/
def grantAccess (s : State) (sender infoId buyer : Nat) : Except String State :=
  if ¬ validId s infoId then .error "Invalid info ID"
  else if ¬ (s.infoItems infoId).owner = sender then .error "Only owner can grant access"
  else if (s.infoItems infoId).hasPurchased buyer = false then
    .error "Buyer has not purchased"
  else if (s.infoItems infoId).hasAccess buyer = true then
    .error "Access already granted"
  else .ok (grantApply s infoId buyer)

/-- Successful-path state change of `updatePrice`. -/
def priceApply (s : State) (infoId newPrice : Nat) : State :=
  { s with
      infoItems := upd s.infoItems infoId
        { s.infoItems infoId with price := newPrice } }

/-- `updatePrice(infoId, newPrice)`. -/
def updatePrice (s : State) (sender infoId newPrice : Nat) : Except String State :=
  if ¬ validId s infoId then .error "Invalid info ID"
  else if ¬ (s.infoItems infoId).owner = sender then .error "Only owner can update price"
  else if (s.infoItems infoId).isActive = false then .error "Info is not active"
  else if newPrice = 0 then .error "Price must be greater than 0"
  else .ok (priceApply s infoId newPrice)

/-- Successful-path state change of `deactivateInfo`. -/
def deactivateApply (s : State) (infoId : Nat) : State :=
  { s with
      infoItems := upd s.infoItems infoId
        { s.infoItems infoId with isActive := false } }

/-- `deactivateInfo(infoId)` of the plaintext-price variant (this one
requires the item to still be active). -/
def deactivateInfo (s : State) (sender infoId : Nat) : Except String State :=
  if ¬ validId s infoId then .error "Invalid info ID"
  else if ¬ (s.infoItems infoId).owner = sender then .error "Only owner can deactivate"
  else if (s.infoItems infoId).isActive = false then .error "Info already inactive"
  else .ok (deactivateApply s infoId)

/-- `getInfoContent(infoId)` (view): gated on the caller holding an access
grant. -/
def getInfoContent (s : State) (caller infoId : Nat) : Except String String :=
  if ¬ validId s infoId then .error "Invalid info ID"
  else if (s.infoItems infoId).hasAccess caller = false then
    .error "No access to this info"
  else .ok (s.infoItems infoId).info

/-- `getEncryptedOwner(infoId)` (view): note that the body never consults
the caller — the only guard is id validity. -/
def getEncryptedOwner (s : State) (caller infoId : Nat) : Except String Nat :=
  if ¬ validId s infoId then .error "Invalid info ID"
  else .ok (s.infoItems infoId).encryptedOwner

/-- One state-mutating external call to the plaintext-price contract. -/
inductive Op where
  | createInfo (sender : Nat) (title info : String) (encOwner price time : Nat)
  | purchaseInfo (sender value infoId : Nat)
  | grantAccess (sender infoId buyer : Nat)
  | updatePrice (sender infoId newPrice : Nat)
  | deactivateInfo (sender infoId : Nat)

/-- Dispatch one call. -/
def step (s : State) : Op → Except String State
  | .createInfo sender title info encOwner price time =>
    createInfo s sender title info encOwner price time
  | .purchaseInfo sender value infoId => purchaseInfo s sender value infoId
  | .grantAccess sender infoId buyer => grantAccess s sender infoId buyer
  | .updatePrice sender infoId newPrice => updatePrice s sender infoId newPrice
  | .deactivateInfo sender infoId => deactivateInfo s sender infoId

/-- Execute one call; a reverted call leaves the state unchanged. -/
def execOp (s : State) (op : Op) : State :=
  match step s op with
  | .ok s' => s'
  | .error _ => s

/-- Execute a sequence of calls in order. -/
def exec (s : State) : List Op → State
  | [] => s
  | op :: ops => exec (execOp s op) ops

/-- A state is reachable if some call sequence produces it from a freshly
deployed contract. -/
def Reachable (s : State) : Prop :=
  ∃ ops, s = exec initState ops

end InfoTradeV2

namespace InfoTrade

/-- Concrete run: address 1 uploads item 1 (handle 7, price 100 wei). -/
def exAfterUpload : State :=
  exec (initState 0) [.uploadInfo 1 7 100 0]

/-- Concrete run: upload as above, then address 2 requests item 1 paying
101 wei (1 wei above the price), leaving a pending overpaid request. -/
def exPend : State :=
  exec (initState 0) [.uploadInfo 1 7 100 0, .requestPurchase 2 101 1 1]

/-- Concrete run: the pending overpaid request of `exPend` is approved. -/
def exApproved : State :=
  exec (initState 0)
    [.uploadInfo 1 7 100 0, .requestPurchase 2 101 1 1, .grantAccess 1 1 2]

/-- Concrete run: the pending overpaid request of `exPend` is denied. -/
def exDenied : State :=
  exec (initState 0)
    [.uploadInfo 1 7 100 0, .requestPurchase 2 101 1 1, .denyAccess 1 1 2]

/-- Concrete run: after the denial, buyer 2 requests item 1 again (exact
payment this time), making the same pair pending once more. -/
def exReopened : State :=
  exec (initState 0)
    [.uploadInfo 1 7 100 0, .requestPurchase 2 101 1 1, .denyAccess 1 1 2,
     .requestPurchase 2 100 1 2]

/-- Concrete run: the reopened request is then approved. -/
def exReapproved : State :=
  exec (initState 0)
    [.uploadInfo 1 7 100 0, .requestPurchase 2 101 1 1, .denyAccess 1 1 2,
     .requestPurchase 2 100 1 2, .grantAccess 1 1 2]

/-- Concrete run: item 1 is uploaded and then deactivated by its seller. -/
def exDeactivated : State :=
  exec (initState 0) [.uploadInfo 1 7 100 0, .deactivateInfo 1 1]

end InfoTrade

namespace InfoTradeV2

/-- Concrete run: address 1 creates item 1 (title "t", content "secret",
handle 9, price 100 wei). -/
def exCreated : State :=
  exec initState [.createInfo 1 "t" "secret" 9 100 0]

/-- Concrete run: item 1 created and then deactivated by its owner. -/
def exCreatedDeactivated : State :=
  exec initState [.createInfo 1 "t" "secret" 9 100 0, .deactivateInfo 1 1]

end InfoTradeV2

theorem upd_self {α : Type} (f : Nat → α) (k : Nat) (v : α) : upd f k v k = v := by
  simp [upd]

theorem upd_other {α : Type} (f : Nat → α) (k : Nat) (v : α) (x : Nat) (h : x ≠ k) :
    upd f k v x = f x := by
  simp [upd, h]

theorem upd2_self {α : Type} (f : Nat → Nat → α) (k1 k2 : Nat) (v : α) :
    upd2 f k1 k2 v k1 k2 = v := by
  simp [upd2]

theorem upd2_other {α : Type} (f : Nat → Nat → α) (k1 k2 : Nat) (v : α) (x y : Nat)
    (h : ¬ (x = k1 ∧ y = k2)) : upd2 f k1 k2 v x y = f x y := by
  simp only [upd2, if_neg h]

/-- Summing a pointwise-changed function over a duplicate-free list: changing
the value at one member `p` trades `f p` for `g p` in the total. -/
theorem sum_map_swap {α : Type} (l : List α) (f g : α → Nat) (p : α)
    (hl : l.Nodup) (hp : p ∈ l) (hq : ∀ q ∈ l, q ≠ p → g q = f q) :
    (l.map g).sum + f p = (l.map f).sum + g p := by
  induction l with
  | nil => cases hp
  | cons a t ih =>
    simp only [List.map_cons, List.sum_cons]
    rcases List.mem_cons.mp hp with rfl | hpt
    · have hfg : ∀ q ∈ t, g q = f q := by
        intro q hqt
        refine hq q (List.mem_cons_of_mem _ hqt) ?_
        rintro rfl
        exact (List.nodup_cons.mp hl).1 hqt
      rw [List.map_congr_left hfg]
      omega
    · have hap : a ≠ p := by
        rintro rfl
        exact (List.nodup_cons.mp hl).1 hpt
      have hga : g a = f a := hq a (List.mem_cons_self a t) hap
      have ht := ih (List.nodup_cons.mp hl).2 hpt
        (fun q hqt hqp => hq q (List.mem_cons_of_mem _ hqt) hqp)
      omega

namespace InfoTrade

theorem execOp_eq_of_ok (s : State) (op : Op) (s' : State) (h : step s op = .ok s') :
    execOp s op = s' := by
  unfold execOp; rw [h]

theorem execOp_eq_of_error (s : State) (op : Op) (e : String)
    (h : step s op = .error e) : execOp s op = s := by
  unfold execOp; rw [h]

theorem uploadInfo_cases (s : State) (sender encInfo price time : Nat) :
    (∃ e, uploadInfo s sender encInfo price time = .error e) ∨
    (price ≠ 0 ∧
      uploadInfo s sender encInfo price time =
        .ok (uploadApply s sender encInfo price time)) := by
  unfold uploadInfo
  split
  · exact Or.inl ⟨_, rfl⟩
  · next h => exact Or.inr ⟨h, rfl⟩

theorem requestPurchase_cases (s : State) (sender value infoId time : Nat) :
    (∃ e, requestPurchase s sender value infoId time = .error e) ∨
    (infoExists s infoId ∧ (s.infoItems infoId).isActive = true ∧
      sender ≠ (s.infoItems infoId).seller ∧ (s.infoItems infoId).price ≤ value ∧
      (s.purchaseRequests infoId sender).isPending = false ∧
      (s.purchaseRequests infoId sender).isApproved = false ∧
      requestPurchase s sender value infoId time =
        .ok (requestApply s sender value infoId time)) := by
  unfold requestPurchase
  repeat' split
  all_goals try exact Or.inl ⟨_, rfl⟩
  rename_i h1 h2 h3 h4 h5 h6
  refine Or.inr ⟨not_not.mp h1, ?_, h3, by omega, ?_, ?_, rfl⟩
  · revert h2; cases (s.infoItems infoId).isActive <;> simp
  · revert h5; cases (s.purchaseRequests infoId sender).isPending <;> simp
  · revert h6; cases (s.purchaseRequests infoId sender).isApproved <;> simp

theorem grantAccess_cases (s : State) (sender infoId buyer : Nat) :
    (∃ e, grantAccess s sender infoId buyer = .error e) ∨
    ((s.infoItems infoId).seller = sender ∧ infoExists s infoId ∧
      (s.purchaseRequests infoId buyer).isPending = true ∧
      (s.infoItems infoId).price
          - (s.infoItems infoId).price * PLATFORM_FEE_PERCENT / 100
        ≤ s.contractBalance ∧
      grantAccess s sender infoId buyer = .ok (grantResult s sender infoId buyer)) := by
  unfold grantAccess transfer
  repeat' split
  all_goals try exact Or.inl ⟨_, rfl⟩
  rename_i h1 h2 h3 h4
  exact Or.inr ⟨not_not.mp h1, not_not.mp h2, not_not.mp h3, h4, rfl⟩

theorem denyAccess_cases (s : State) (sender infoId buyer : Nat) :
    (∃ e, denyAccess s sender infoId buyer = .error e) ∨
    ((s.infoItems infoId).seller = sender ∧ infoExists s infoId ∧
      (s.purchaseRequests infoId buyer).isPending = true ∧
      (s.infoItems infoId).price ≤ s.contractBalance ∧
      denyAccess s sender infoId buyer = .ok (denyResult s infoId buyer)) := by
  unfold denyAccess transfer
  repeat' split
  all_goals try exact Or.inl ⟨_, rfl⟩
  rename_i h1 h2 h3 h4
  exact Or.inr ⟨not_not.mp h1, not_not.mp h2, not_not.mp h3, h4, rfl⟩

theorem deactivateInfo_cases (s : State) (sender infoId : Nat) :
    (∃ e, deactivateInfo s sender infoId = .error e) ∨
    ((s.infoItems infoId).seller = sender ∧ infoExists s infoId ∧
      deactivateInfo s sender infoId = .ok (deactivateApply s infoId)) := by
  unfold deactivateInfo
  repeat' split
  all_goals try exact Or.inl ⟨_, rfl⟩
  rename_i h1 h2
  exact Or.inr ⟨not_not.mp h1, not_not.mp h2, rfl⟩

theorem withdrawPlatformFees_cases (s : State) (sender : Nat) :
    (∃ e, withdrawPlatformFees s sender = .error e) ∨
    (sender = s.owner ∧ s.platformBalance ≠ 0 ∧
      s.platformBalance ≤ s.contractBalance ∧
      withdrawPlatformFees s sender = .ok (withdrawResult s)) := by
  unfold withdrawPlatformFees transfer
  repeat' split
  all_goals try exact Or.inl ⟨_, rfl⟩
  rename_i h1 h2 h3
  exact Or.inr ⟨not_not.mp h1, h2, h3, rfl⟩

theorem exec_preserve (P : State → Prop) (hstep : ∀ s op, P s → P (execOp s op)) :
    ∀ (ops : List Op) (s : State), P s → P (exec s ops) := by
  intro ops
  induction ops with
  | nil => intro s hs; exact hs
  | cons op ops ih => intro s hs; exact ih (execOp s op) (hstep s op hs)

theorem exec_preserve_cond (P : State → Prop) (Q : Op → Prop)
    (hstep : ∀ s op, Q op → P s → P (execOp s op)) :
    ∀ (ops : List Op), (∀ op ∈ ops, Q op) → ∀ s, P s → P (exec s ops) := by
  intro ops
  induction ops with
  | nil => intro _ s hs; exact hs
  | cons op ops ih =>
    intro hq s hs
    exact ih (fun o ho => hq o (List.mem_cons_of_mem _ ho)) (execOp s op)
      (hstep s op (hq op (List.mem_cons_self _ _)) hs)

/-- The 2% fee never exceeds the price. -/
theorem fee_le_price (price : Nat) :
    price * PLATFORM_FEE_PERCENT / 100 ≤ price := by
  have h1 : price * PLATFORM_FEE_PERCENT ≤ price * 100 :=
    Nat.mul_le_mul_left price (by norm_num [PLATFORM_FEE_PERCENT])
  calc price * PLATFORM_FEE_PERCENT / 100 ≤ price * 100 / 100 := Nat.div_le_div_right h1
    _ = price := Nat.mul_div_cancel price (by norm_num)

theorem pendingSum_congr (s t : State)
    (hpairs : t.requestedPairs = s.requestedPairs)
    (hterm : ∀ p ∈ s.requestedPairs, pendingTerm t p = pendingTerm s p) :
    pendingSum t = pendingSum s := by
  unfold pendingSum
  rw [hpairs, List.map_congr_left hterm]

theorem pendingTerm_le_pendingSum (s : State) (p : Nat × Nat)
    (hp : p ∈ s.requestedPairs) : pendingTerm s p ≤ pendingSum s :=
  List.single_le_sum (fun _ _ => Nat.zero_le _) _ (List.mem_map_of_mem _ hp)

/-- Resolving a pending request (either way) removes exactly one item price
from the pending escrow total. -/
theorem pendingSum_resolve (s t : State) (infoId buyer : Nat) (r : PurchaseRequest)
    (hpairs : t.requestedPairs = s.requestedPairs)
    (hitems : t.infoItems = s.infoItems)
    (hreq : t.purchaseRequests = upd2 s.purchaseRequests infoId buyer r)
    (hr : r.isPending = false)
    (hinv : Inv s)
    (hpend : (s.purchaseRequests infoId buyer).isPending = true) :
    pendingSum t + (s.infoItems infoId).price = pendingSum s := by
  have hmem := hinv.pending_mem infoId buyer hpend
  have hq : ∀ q ∈ s.requestedPairs, q ≠ (infoId, buyer) →
      pendingTerm t q = pendingTerm s q := by
    intro q _ hqp
    have hne : ¬ (q.1 = infoId ∧ q.2 = buyer) := by
      intro ⟨ha, hb⟩
      exact hqp (Prod.ext ha hb)
    unfold pendingTerm
    rw [hreq, upd2_other _ _ _ _ _ _ hne, hitems]
  have hswap := sum_map_swap s.requestedPairs (pendingTerm s) (pendingTerm t)
    (infoId, buyer) hinv.nodup hmem hq
  have hf : pendingTerm s (infoId, buyer) = (s.infoItems infoId).price := by
    unfold pendingTerm
    rw [if_pos hpend]
  have hg : pendingTerm t (infoId, buyer) = 0 := by
    unfold pendingTerm
    rw [hreq, upd2_self, hr]
    simp
  unfold pendingSum
  rw [hpairs]
  omega

/-- Creating a pending request adds exactly one item price to the pending
escrow total. -/
theorem pendingSum_requestApply (s : State) (sender value infoId time : Nat)
    (hinv : Inv s)
    (hpend : (s.purchaseRequests infoId sender).isPending = false) :
    pendingSum (requestApply s sender value infoId time)
      = pendingSum s + (s.infoItems infoId).price := by
  set t := requestApply s sender value infoId time with ht
  have hitems : t.infoItems = s.infoItems := rfl
  have hreq : t.purchaseRequests = upd2 s.purchaseRequests infoId sender
      { infoId := infoId, buyer := sender, timestamp := time,
        isPending := true, isApproved := false } := rfl
  have hg : pendingTerm t (infoId, sender) = (s.infoItems infoId).price := by
    unfold pendingTerm
    rw [hreq, upd2_self, hitems]
    simp
  have hq : ∀ q ∈ s.requestedPairs, q ≠ (infoId, sender) →
      pendingTerm t q = pendingTerm s q := by
    intro q _ hqp
    have hne : ¬ (q.1 = infoId ∧ q.2 = sender) := by
      intro ⟨ha, hb⟩
      exact hqp (Prod.ext ha hb)
    unfold pendingTerm
    rw [hreq, upd2_other _ _ _ _ _ _ hne, hitems]
  by_cases hmem : (infoId, sender) ∈ s.requestedPairs
  · have hpairs : t.requestedPairs = s.requestedPairs := by
      simp [ht, requestApply, hmem]
    have hswap := sum_map_swap s.requestedPairs (pendingTerm s) (pendingTerm t)
      (infoId, sender) hinv.nodup hmem hq
    have hf : pendingTerm s (infoId, sender) = 0 := by
      unfold pendingTerm
      rw [hpend]
      simp
    unfold pendingSum
    rw [hpairs]
    omega
  · have hpairs : t.requestedPairs = s.requestedPairs ++ [(infoId, sender)] := by
      simp [ht, requestApply, hmem]
    have hcongr : ∀ q ∈ s.requestedPairs, pendingTerm t q = pendingTerm s q := by
      intro q hql
      refine hq q hql ?_
      rintro rfl
      exact hmem hql
    unfold pendingSum
    rw [hpairs, List.map_append, List.sum_append, List.map_congr_left hcongr]
    simp [hg]

/-- The inductive invariant holds in the deployed state. -/
theorem inv_init (deployer : Nat) : Inv (initState deployer) := by
  refine ⟨?_, ?_, ?_, ?_, ?_⟩
  · simp [initState]
  · intro p hp
    simp [initState] at hp
  · intro i b h
    simp [initState, emptyRequest] at h
  · intro i b h
    simp [initState, emptyRequest] at h
  · simp [initState, pendingSum]

/-- The inductive invariant is preserved by every external call (including
reverting ones, which leave the state unchanged). -/
theorem inv_execOp (s : State) (op : Op) (hinv : Inv s) : Inv (execOp s op) := by
  cases op with
  | uploadInfo sender encInfo price time =>
    rcases uploadInfo_cases s sender encInfo price time with ⟨e, he⟩ | ⟨_, hok⟩
    · rw [execOp_eq_of_error s (.uploadInfo sender encInfo price time) e he]; exact hinv
    · rw [execOp_eq_of_ok s (.uploadInfo sender encInfo price time) _ hok]
      have hsum : pendingSum (uploadApply s sender encInfo price time) = pendingSum s := by
        refine pendingSum_congr _ _ rfl ?_
        intro p hp
        have hlt := hinv.pairs_lt p hp
        unfold pendingTerm uploadApply
        simp only []
        rw [upd_other _ _ _ _ (by omega)]
      refine ⟨hinv.nodup, ?_, hinv.pending_mem, hinv.mutex, ?_⟩
      · intro p hp
        have := hinv.pairs_lt p hp
        show p.1 < s.nextInfoId + 1
        omega
      · show s.contractBalance = s.platformBalance
          + pendingSum (uploadApply s sender encInfo price time) + s.totalSurplus
        rw [hsum]
        exact hinv.conservation
  | requestPurchase sender value infoId time =>
    rcases requestPurchase_cases s sender value infoId time with
      ⟨e, he⟩ | ⟨hex, _, _, hval, hpend, _, hok⟩
    · rw [execOp_eq_of_error s (.requestPurchase sender value infoId time) e he]; exact hinv
    · rw [execOp_eq_of_ok s (.requestPurchase sender value infoId time) _ hok]
      have hsum := pendingSum_requestApply s sender value infoId time hinv hpend
      refine ⟨?_, ?_, ?_, ?_, ?_⟩
      · show ((if (infoId, sender) ∈ s.requestedPairs then s.requestedPairs
              else s.requestedPairs ++ [(infoId, sender)]) : List (Nat × Nat)).Nodup
        split
        · exact hinv.nodup
        · next hmem =>
          simp [List.nodup_append, hinv.nodup, hmem]
      · intro p hp
        show p.1 < s.nextInfoId
        by_cases hmem : (infoId, sender) ∈ s.requestedPairs
        · simp only [requestApply, if_pos hmem] at hp
          exact hinv.pairs_lt p hp
        · simp only [requestApply, if_neg hmem, List.mem_append,
            List.mem_singleton] at hp
          rcases hp with hp | rfl
          · exact hinv.pairs_lt p hp
          · exact hex.1
      · intro i b h
        show (i, b) ∈ (requestApply s sender value infoId time).requestedPairs
        have hsup : ∀ q, q ∈ s.requestedPairs →
            q ∈ (requestApply s sender value infoId time).requestedPairs := by
          intro q hq
          show q ∈ (if (infoId, sender) ∈ s.requestedPairs then s.requestedPairs
              else s.requestedPairs ++ [(infoId, sender)])
          split
          · exact hq
          · exact List.mem_append_left _ hq
        by_cases hib : i = infoId ∧ b = sender
        · show (i, b) ∈ (if (infoId, sender) ∈ s.requestedPairs
              then s.requestedPairs else s.requestedPairs ++ [(infoId, sender)])
          rw [hib.1, hib.2]
          split
          · assumption
          · exact List.mem_append_right _ (List.mem_singleton.mpr rfl)
        · have : (requestApply s sender value infoId time).purchaseRequests i b
              = s.purchaseRequests i b := upd2_other _ _ _ _ _ _ hib
          rw [this] at h
          exact hsup _ (hinv.pending_mem i b h)
      · intro i b h
        by_cases hib : i = infoId ∧ b = sender
        · have heq : (requestApply s sender value infoId time).purchaseRequests i b
              = { infoId := infoId, buyer := sender, timestamp := time,
                  isPending := true, isApproved := false } := by
            rw [hib.1, hib.2]
            exact upd2_self _ _ _ _
          rw [heq]
        · have heq : (requestApply s sender value infoId time).purchaseRequests i b
              = s.purchaseRequests i b := upd2_other _ _ _ _ _ _ hib
          rw [heq] at h ⊢
          exact hinv.mutex i b h
      · show s.contractBalance + value = s.platformBalance
          + pendingSum (requestApply s sender value infoId time)
          + (s.totalSurplus + (value - (s.infoItems infoId).price))
        rw [hsum]
        have := hinv.conservation
        omega
  | grantAccess sender infoId buyer =>
    rcases grantAccess_cases s sender infoId buyer with
      ⟨e, he⟩ | ⟨_, _, hpend, hbal, hok⟩
    · rw [execOp_eq_of_error s (.grantAccess sender infoId buyer) e he]; exact hinv
    · rw [execOp_eq_of_ok s (.grantAccess sender infoId buyer) _ hok]
      have hsum : pendingSum (grantResult s sender infoId buyer)
          + (s.infoItems infoId).price = pendingSum s :=
        pendingSum_resolve s _ infoId buyer _ rfl rfl rfl rfl hinv hpend
      refine ⟨hinv.nodup, hinv.pairs_lt, ?_, ?_, ?_⟩
      · intro i b h
        by_cases hib : i = infoId ∧ b = buyer
        · have heq : (grantResult s sender infoId buyer).purchaseRequests i b
              = { s.purchaseRequests infoId buyer with isPending := false, isApproved := true } := by
            rw [hib.1, hib.2]
            exact upd2_self _ _ _ _
          rw [heq] at h
          simp at h
        · have heq : (grantResult s sender infoId buyer).purchaseRequests i b
              = s.purchaseRequests i b := upd2_other _ _ _ _ _ _ hib
          rw [heq] at h
          exact hinv.pending_mem i b h
      · intro i b h
        by_cases hib : i = infoId ∧ b = buyer
        · have heq : (grantResult s sender infoId buyer).purchaseRequests i b
              = { s.purchaseRequests infoId buyer with isPending := false, isApproved := true } := by
            rw [hib.1, hib.2]
            exact upd2_self _ _ _ _
          rw [heq] at h
          simp at h
        · have heq : (grantResult s sender infoId buyer).purchaseRequests i b
              = s.purchaseRequests i b := upd2_other _ _ _ _ _ _ hib
          rw [heq] at h ⊢
          exact hinv.mutex i b h
      · show s.contractBalance
            - ((s.infoItems infoId).price
                - (s.infoItems infoId).price * PLATFORM_FEE_PERCENT / 100)
          = s.platformBalance + (s.infoItems infoId).price * PLATFORM_FEE_PERCENT / 100
            + pendingSum (grantResult s sender infoId buyer) + s.totalSurplus
        have hfee := fee_le_price (s.infoItems infoId).price
        have := hinv.conservation
        omega
  | denyAccess sender infoId buyer =>
    rcases denyAccess_cases s sender infoId buyer with
      ⟨e, he⟩ | ⟨_, _, hpend, hbal, hok⟩
    · rw [execOp_eq_of_error s (.denyAccess sender infoId buyer) e he]; exact hinv
    · rw [execOp_eq_of_ok s (.denyAccess sender infoId buyer) _ hok]
      have hsum : pendingSum (denyResult s infoId buyer)
          + (s.infoItems infoId).price = pendingSum s :=
        pendingSum_resolve s _ infoId buyer _ rfl rfl rfl rfl hinv hpend
      refine ⟨hinv.nodup, hinv.pairs_lt, ?_, ?_, ?_⟩
      · intro i b h
        by_cases hib : i = infoId ∧ b = buyer
        · have heq : (denyResult s infoId buyer).purchaseRequests i b
              = { s.purchaseRequests infoId buyer with isPending := false, isApproved := false } := by
            rw [hib.1, hib.2]
            exact upd2_self _ _ _ _
          rw [heq] at h
          simp at h
        · have heq : (denyResult s infoId buyer).purchaseRequests i b
              = s.purchaseRequests i b := upd2_other _ _ _ _ _ _ hib
          rw [heq] at h
          exact hinv.pending_mem i b h
      · intro i b h
        by_cases hib : i = infoId ∧ b = buyer
        · have heq : (denyResult s infoId buyer).purchaseRequests i b
              = { s.purchaseRequests infoId buyer with isPending := false, isApproved := false } := by
            rw [hib.1, hib.2]
            exact upd2_self _ _ _ _
          rw [heq] at h
          simp at h
        · have heq : (denyResult s infoId buyer).purchaseRequests i b
              = s.purchaseRequests i b := upd2_other _ _ _ _ _ _ hib
          rw [heq] at h ⊢
          exact hinv.mutex i b h
      · show s.contractBalance - (s.infoItems infoId).price
          = s.platformBalance + pendingSum (denyResult s infoId buyer) + s.totalSurplus
        have := hinv.conservation
        have hle : (s.infoItems infoId).price ≤ pendingSum s := by
          have hmem := hinv.pending_mem infoId buyer hpend
          have := pendingTerm_le_pendingSum s (infoId, buyer) hmem
          unfold pendingTerm at this
          rw [if_pos hpend] at this
          exact this
        omega
  | deactivateInfo sender infoId =>
    rcases deactivateInfo_cases s sender infoId with ⟨e, he⟩ | ⟨_, _, hok⟩
    · rw [execOp_eq_of_error s (.deactivateInfo sender infoId) e he]; exact hinv
    · rw [execOp_eq_of_ok s (.deactivateInfo sender infoId) _ hok]
      have hsum : pendingSum (deactivateApply s infoId) = pendingSum s := by
        refine pendingSum_congr _ _ rfl ?_
        intro p _
        unfold pendingTerm deactivateApply upd
        by_cases hp1 : p.1 = infoId
        · simp [hp1]
        · simp [hp1]
      refine ⟨hinv.nodup, hinv.pairs_lt, hinv.pending_mem, hinv.mutex, ?_⟩
      show s.contractBalance = s.platformBalance
        + pendingSum (deactivateApply s infoId) + s.totalSurplus
      rw [hsum]
      exact hinv.conservation
  | withdrawPlatformFees sender =>
    rcases withdrawPlatformFees_cases s sender with ⟨e, he⟩ | ⟨_, _, hbal, hok⟩
    · rw [execOp_eq_of_error s (.withdrawPlatformFees sender) e he]; exact hinv
    · rw [execOp_eq_of_ok s (.withdrawPlatformFees sender) _ hok]
      refine ⟨hinv.nodup, hinv.pairs_lt, hinv.pending_mem, hinv.mutex, ?_⟩
      show s.contractBalance - s.platformBalance
        = 0 + pendingSum (withdrawResult s) + s.totalSurplus
      have hsum : pendingSum (withdrawResult s) = pendingSum s := rfl
      have := hinv.conservation
      omega

/-- Every reachable state satisfies the inductive invariant. -/
theorem reachable_inv (s : State) (hr : Reachable s) : Inv s := by
  obtain ⟨d, ops, rfl⟩ := hr
  exact exec_preserve Inv inv_execOp ops (initState d) (inv_init d)

/-- Once an existing item is inactive, no single call reactivates it (and the
item keeps existing). -/
theorem inactive_persists_execOp (infoId : Nat) (s : State) (op : Op)
    (h : infoId < s.nextInfoId ∧ (s.infoItems infoId).isActive = false) :
    infoId < (execOp s op).nextInfoId ∧
      ((execOp s op).infoItems infoId).isActive = false := by
  obtain ⟨hlt, hin⟩ := h
  cases op with
  | uploadInfo sender encInfo price time =>
    rcases uploadInfo_cases s sender encInfo price time with ⟨e, he⟩ | ⟨_, hok⟩
    · rw [execOp_eq_of_error s (.uploadInfo sender encInfo price time) e he]
      exact ⟨hlt, hin⟩
    · rw [execOp_eq_of_ok s (.uploadInfo sender encInfo price time) _ hok]
      refine ⟨by show infoId < s.nextInfoId + 1; omega, ?_⟩
      show (upd s.infoItems s.nextInfoId
        { encryptedInfo := encInfo, seller := sender, price := price,
          isActive := true, createdAt := time } infoId).isActive = false
      rw [upd_other _ _ _ _ (by omega)]
      exact hin
  | requestPurchase sender value infoId' time =>
    rcases requestPurchase_cases s sender value infoId' time with
      ⟨e, he⟩ | ⟨_, _, _, _, _, _, hok⟩
    · rw [execOp_eq_of_error s (.requestPurchase sender value infoId' time) e he]
      exact ⟨hlt, hin⟩
    · rw [execOp_eq_of_ok s (.requestPurchase sender value infoId' time) _ hok]
      exact ⟨hlt, hin⟩
  | grantAccess sender infoId' buyer =>
    rcases grantAccess_cases s sender infoId' buyer with ⟨e, he⟩ | ⟨_, _, _, _, hok⟩
    · rw [execOp_eq_of_error s (.grantAccess sender infoId' buyer) e he]
      exact ⟨hlt, hin⟩
    · rw [execOp_eq_of_ok s (.grantAccess sender infoId' buyer) _ hok]
      exact ⟨hlt, hin⟩
  | denyAccess sender infoId' buyer =>
    rcases denyAccess_cases s sender infoId' buyer with ⟨e, he⟩ | ⟨_, _, _, _, hok⟩
    · rw [execOp_eq_of_error s (.denyAccess sender infoId' buyer) e he]
      exact ⟨hlt, hin⟩
    · rw [execOp_eq_of_ok s (.denyAccess sender infoId' buyer) _ hok]
      exact ⟨hlt, hin⟩
  | deactivateInfo sender infoId' =>
    rcases deactivateInfo_cases s sender infoId' with ⟨e, he⟩ | ⟨_, _, hok⟩
    · rw [execOp_eq_of_error s (.deactivateInfo sender infoId') e he]
      exact ⟨hlt, hin⟩
    · rw [execOp_eq_of_ok s (.deactivateInfo sender infoId') _ hok]
      refine ⟨hlt, ?_⟩
      show (upd s.infoItems infoId'
        { s.infoItems infoId' with isActive := false } infoId).isActive = false
      by_cases heq : infoId = infoId'
      · rw [heq, upd_self]
      · rw [upd_other _ _ _ _ heq]
        exact hin
  | withdrawPlatformFees sender =>
    rcases withdrawPlatformFees_cases s sender with ⟨e, he⟩ | ⟨_, _, _, hok⟩
    · rw [execOp_eq_of_error s (.withdrawPlatformFees sender) e he]
      exact ⟨hlt, hin⟩
    · rw [execOp_eq_of_ok s (.withdrawPlatformFees sender) _ hok]
      exact ⟨hlt, hin⟩

/-- A resolved-and-unapproved request stays resolved and unapproved under any
call that is not a fresh `requestPurchase` by the same buyer for the same
item. -/
theorem resolved_persists_execOp (infoId buyer : Nat) (s : State) (op : Op)
    (hq : requestsPair op infoId buyer = false)
    (h : (s.purchaseRequests infoId buyer).isPending = false ∧
         (s.purchaseRequests infoId buyer).isApproved = false) :
    ((execOp s op).purchaseRequests infoId buyer).isPending = false ∧
      ((execOp s op).purchaseRequests infoId buyer).isApproved = false := by
  obtain ⟨hp, ha⟩ := h
  cases op with
  | uploadInfo sender encInfo price time =>
    rcases uploadInfo_cases s sender encInfo price time with ⟨e, he⟩ | ⟨_, hok⟩
    · rw [execOp_eq_of_error s (.uploadInfo sender encInfo price time) e he]
      exact ⟨hp, ha⟩
    · rw [execOp_eq_of_ok s (.uploadInfo sender encInfo price time) _ hok]
      exact ⟨hp, ha⟩
  | requestPurchase sender value infoId' time =>
    rcases requestPurchase_cases s sender value infoId' time with
      ⟨e, he⟩ | ⟨_, _, _, _, _, _, hok⟩
    · rw [execOp_eq_of_error s (.requestPurchase sender value infoId' time) e he]
      exact ⟨hp, ha⟩
    · rw [execOp_eq_of_ok s (.requestPurchase sender value infoId' time) _ hok]
      have hq' : ¬ (infoId = infoId' ∧ buyer = sender) := by
        simp only [requestsPair, Bool.and_eq_false_iff, decide_eq_false_iff_not] at hq
        intro ⟨h1, h2⟩
        rcases hq with hq | hq
        · exact hq h2.symm
        · exact hq h1.symm
      have heq : (requestApply s sender value infoId' time).purchaseRequests
          infoId buyer = s.purchaseRequests infoId buyer :=
        upd2_other _ _ _ _ _ _ hq'
      rw [heq]
      exact ⟨hp, ha⟩
  | grantAccess sender infoId' buyer' =>
    rcases grantAccess_cases s sender infoId' buyer' with
      ⟨e, he⟩ | ⟨_, _, hpend', _, hok⟩
    · rw [execOp_eq_of_error s (.grantAccess sender infoId' buyer') e he]
      exact ⟨hp, ha⟩
    · rw [execOp_eq_of_ok s (.grantAccess sender infoId' buyer') _ hok]
      by_cases hib : infoId = infoId' ∧ buyer = buyer'
      · exfalso
        rw [← hib.1, ← hib.2, hp] at hpend'
        cases hpend'
      · have heq : (grantResult s sender infoId' buyer').purchaseRequests
            infoId buyer = s.purchaseRequests infoId buyer :=
          upd2_other _ _ _ _ _ _ hib
        rw [heq]
        exact ⟨hp, ha⟩
  | denyAccess sender infoId' buyer' =>
    rcases denyAccess_cases s sender infoId' buyer' with
      ⟨e, he⟩ | ⟨_, _, hpend', _, hok⟩
    · rw [execOp_eq_of_error s (.denyAccess sender infoId' buyer') e he]
      exact ⟨hp, ha⟩
    · rw [execOp_eq_of_ok s (.denyAccess sender infoId' buyer') _ hok]
      by_cases hib : infoId = infoId' ∧ buyer = buyer'
      · exfalso
        rw [← hib.1, ← hib.2, hp] at hpend'
        cases hpend'
      · have heq : (denyResult s infoId' buyer').purchaseRequests
            infoId buyer = s.purchaseRequests infoId buyer :=
          upd2_other _ _ _ _ _ _ hib
        rw [heq]
        exact ⟨hp, ha⟩
  | deactivateInfo sender infoId' =>
    rcases deactivateInfo_cases s sender infoId' with ⟨e, he⟩ | ⟨_, _, hok⟩
    · rw [execOp_eq_of_error s (.deactivateInfo sender infoId') e he]
      exact ⟨hp, ha⟩
    · rw [execOp_eq_of_ok s (.deactivateInfo sender infoId') _ hok]
      exact ⟨hp, ha⟩
  | withdrawPlatformFees sender =>
    rcases withdrawPlatformFees_cases s sender with ⟨e, he⟩ | ⟨_, _, _, hok⟩
    · rw [execOp_eq_of_error s (.withdrawPlatformFees sender) e he]
      exact ⟨hp, ha⟩
    · rw [execOp_eq_of_ok s (.withdrawPlatformFees sender) _ hok]
      exact ⟨hp, ha⟩

/-- An approved (and no longer pending) request keeps exactly that status
under every call whatsoever. -/
theorem approved_persists_execOp (infoId buyer : Nat) (s : State) (op : Op)
    (h : (s.purchaseRequests infoId buyer).isApproved = true ∧
         (s.purchaseRequests infoId buyer).isPending = false) :
    ((execOp s op).purchaseRequests infoId buyer).isApproved = true ∧
      ((execOp s op).purchaseRequests infoId buyer).isPending = false := by
  obtain ⟨ha, hp⟩ := h
  cases op with
  | uploadInfo sender encInfo price time =>
    rcases uploadInfo_cases s sender encInfo price time with ⟨e, he⟩ | ⟨_, hok⟩
    · rw [execOp_eq_of_error s (.uploadInfo sender encInfo price time) e he]
      exact ⟨ha, hp⟩
    · rw [execOp_eq_of_ok s (.uploadInfo sender encInfo price time) _ hok]
      exact ⟨ha, hp⟩
  | requestPurchase sender value infoId' time =>
    rcases requestPurchase_cases s sender value infoId' time with
      ⟨e, he⟩ | ⟨_, _, _, _, _, happr', hok⟩
    · rw [execOp_eq_of_error s (.requestPurchase sender value infoId' time) e he]
      exact ⟨ha, hp⟩
    · rw [execOp_eq_of_ok s (.requestPurchase sender value infoId' time) _ hok]
      by_cases hib : infoId = infoId' ∧ buyer = sender
      · exfalso
        rw [← hib.1, ← hib.2, ha] at happr'
        cases happr'
      · have heq : (requestApply s sender value infoId' time).purchaseRequests
            infoId buyer = s.purchaseRequests infoId buyer :=
          upd2_other _ _ _ _ _ _ hib
        rw [heq]
        exact ⟨ha, hp⟩
  | grantAccess sender infoId' buyer' =>
    rcases grantAccess_cases s sender infoId' buyer' with
      ⟨e, he⟩ | ⟨_, _, hpend', _, hok⟩
    · rw [execOp_eq_of_error s (.grantAccess sender infoId' buyer') e he]
      exact ⟨ha, hp⟩
    · rw [execOp_eq_of_ok s (.grantAccess sender infoId' buyer') _ hok]
      by_cases hib : infoId = infoId' ∧ buyer = buyer'
      · exfalso
        rw [← hib.1, ← hib.2, hp] at hpend'
        cases hpend'
      · have heq : (grantResult s sender infoId' buyer').purchaseRequests
            infoId buyer = s.purchaseRequests infoId buyer :=
          upd2_other _ _ _ _ _ _ hib
        rw [heq]
        exact ⟨ha, hp⟩
  | denyAccess sender infoId' buyer' =>
    rcases denyAccess_cases s sender infoId' buyer' with
      ⟨e, he⟩ | ⟨_, _, hpend', _, hok⟩
    · rw [execOp_eq_of_error s (.denyAccess sender infoId' buyer') e he]
      exact ⟨ha, hp⟩
    · rw [execOp_eq_of_ok s (.denyAccess sender infoId' buyer') _ hok]
      by_cases hib : infoId = infoId' ∧ buyer = buyer'
      · exfalso
        rw [← hib.1, ← hib.2, hp] at hpend'
        cases hpend'
      · have heq : (denyResult s infoId' buyer').purchaseRequests
            infoId buyer = s.purchaseRequests infoId buyer :=
          upd2_other _ _ _ _ _ _ hib
        rw [heq]
        exact ⟨ha, hp⟩
  | deactivateInfo sender infoId' =>
    rcases deactivateInfo_cases s sender infoId' with ⟨e, he⟩ | ⟨_, _, hok⟩
    · rw [execOp_eq_of_error s (.deactivateInfo sender infoId') e he]
      exact ⟨ha, hp⟩
    · rw [execOp_eq_of_ok s (.deactivateInfo sender infoId') _ hok]
      exact ⟨ha, hp⟩
  | withdrawPlatformFees sender =>
    rcases withdrawPlatformFees_cases s sender with ⟨e, he⟩ | ⟨_, _, _, hok⟩
    · rw [execOp_eq_of_error s (.withdrawPlatformFees sender) e he]
      exact ⟨ha, hp⟩
    · rw [execOp_eq_of_ok s (.withdrawPlatformFees sender) _ hok]
      exact ⟨ha, hp⟩

end InfoTrade

namespace InfoTradeV2

theorem execOp_eq_of_okV2 (s : State) (op : Op) (s' : State) (h : step s op = .ok s') :
    execOp s op = s' := by
  unfold execOp; rw [h]

theorem execOp_eq_of_errorV2 (s : State) (op : Op) (e : String)
    (h : step s op = .error e) : execOp s op = s := by
  unfold execOp; rw [h]

theorem createInfo_cases (s : State) (sender : Nat) (title info : String)
    (encOwner price time : Nat) :
    (∃ e, createInfo s sender title info encOwner price time = .error e) ∨
    (title ≠ "" ∧ info ≠ "" ∧ price ≠ 0 ∧
      createInfo s sender title info encOwner price time =
        .ok (createApply s sender title info encOwner price time)) := by
  unfold createInfo
  repeat' split
  all_goals try exact Or.inl ⟨_, rfl⟩
  rename_i h1 h2 h3
  exact Or.inr ⟨h1, h2, h3, rfl⟩

theorem purchaseInfo_cases (s : State) (sender value infoId : Nat) :
    (∃ e, purchaseInfo s sender value infoId = .error e) ∨
    (validId s infoId ∧
      purchaseInfo s sender value infoId = .ok (purchaseApply s sender value infoId)) := by
  unfold purchaseInfo
  repeat' split
  all_goals try exact Or.inl ⟨_, rfl⟩
  rename_i h1 _ _ _ _
  exact Or.inr ⟨not_not.mp h1, rfl⟩

theorem grantAccess_casesV2 (s : State) (sender infoId buyer : Nat) :
    (∃ e, grantAccess s sender infoId buyer = .error e) ∨
    (validId s infoId ∧
      grantAccess s sender infoId buyer = .ok (grantApply s infoId buyer)) := by
  unfold grantAccess
  repeat' split
  all_goals try exact Or.inl ⟨_, rfl⟩
  rename_i h1 _ _ _
  exact Or.inr ⟨not_not.mp h1, rfl⟩

theorem updatePrice_cases (s : State) (sender infoId newPrice : Nat) :
    (∃ e, updatePrice s sender infoId newPrice = .error e) ∨
    (validId s infoId ∧
      updatePrice s sender infoId newPrice = .ok (priceApply s infoId newPrice)) := by
  unfold updatePrice
  repeat' split
  all_goals try exact Or.inl ⟨_, rfl⟩
  rename_i h1 _ _ _
  exact Or.inr ⟨not_not.mp h1, rfl⟩

theorem deactivateInfo_casesV2 (s : State) (sender infoId : Nat) :
    (∃ e, deactivateInfo s sender infoId = .error e) ∨
    (validId s infoId ∧
      deactivateInfo s sender infoId = .ok (deactivateApply s infoId)) := by
  unfold deactivateInfo
  repeat' split
  all_goals try exact Or.inl ⟨_, rfl⟩
  rename_i h1 _ _
  exact Or.inr ⟨not_not.mp h1, rfl⟩

theorem exec_preserveV2 (P : State → Prop) (hstep : ∀ s op, P s → P (execOp s op)) :
    ∀ (ops : List Op) (s : State), P s → P (exec s ops) := by
  intro ops
  induction ops with
  | nil => intro s hs; exact hs
  | cons op ops ih => intro s hs; exact ih (execOp s op) (hstep s op hs)

/-- Under any single call, the item count never decreases. -/
theorem nextInfoId_mono_execOp (n : Nat) (s : State) (op : Op)
    (h : n ≤ s.nextInfoId) : n ≤ (execOp s op).nextInfoId := by
  cases op with
  | createInfo sender title info encOwner price time =>
    rcases createInfo_cases s sender title info encOwner price time with
      ⟨e, he⟩ | ⟨_, _, _, hok⟩
    · rw [execOp_eq_of_errorV2 s (.createInfo sender title info encOwner price time) e he]
      exact h
    · rw [execOp_eq_of_okV2 s (.createInfo sender title info encOwner price time) _ hok]
      show n ≤ s.nextInfoId + 1
      omega
  | purchaseInfo sender value infoId =>
    rcases purchaseInfo_cases s sender value infoId with ⟨e, he⟩ | ⟨_, hok⟩
    · rw [execOp_eq_of_errorV2 s (.purchaseInfo sender value infoId) e he]; exact h
    · rw [execOp_eq_of_okV2 s (.purchaseInfo sender value infoId) _ hok]; exact h
  | grantAccess sender infoId buyer =>
    rcases grantAccess_casesV2 s sender infoId buyer with ⟨e, he⟩ | ⟨_, hok⟩
    · rw [execOp_eq_of_errorV2 s (.grantAccess sender infoId buyer) e he]; exact h
    · rw [execOp_eq_of_okV2 s (.grantAccess sender infoId buyer) _ hok]; exact h
  | updatePrice sender infoId newPrice =>
    rcases updatePrice_cases s sender infoId newPrice with ⟨e, he⟩ | ⟨_, hok⟩
    · rw [execOp_eq_of_errorV2 s (.updatePrice sender infoId newPrice) e he]; exact h
    · rw [execOp_eq_of_okV2 s (.updatePrice sender infoId newPrice) _ hok]; exact h
  | deactivateInfo sender infoId =>
    rcases deactivateInfo_casesV2 s sender infoId with ⟨e, he⟩ | ⟨_, hok⟩
    · rw [execOp_eq_of_errorV2 s (.deactivateInfo sender infoId) e he]; exact h
    · rw [execOp_eq_of_okV2 s (.deactivateInfo sender infoId) _ hok]; exact h

/-- Under any single call, an existing item's owner keeps an access grant
(and existing items keep existing and keep their owner). -/
theorem ownerAccess_execOp (s : State) (op : Op)
    (h : ∀ i, 0 < i → i < s.nextInfoId →
      (s.infoItems i).hasAccess (s.infoItems i).owner = true) :
    ∀ i, 0 < i → i < (execOp s op).nextInfoId →
      ((execOp s op).infoItems i).hasAccess ((execOp s op).infoItems i).owner = true := by
  cases op with
  | createInfo sender title info encOwner price time =>
    rcases createInfo_cases s sender title info encOwner price time with
      ⟨e, he⟩ | ⟨_, _, _, hok⟩
    · rw [execOp_eq_of_errorV2 s (.createInfo sender title info encOwner price time) e he]
      exact h
    · rw [execOp_eq_of_okV2 s (.createInfo sender title info encOwner price time) _ hok]
      intro i h0 hi
      show ((upd s.infoItems s.nextInfoId _ i).hasAccess (upd s.infoItems s.nextInfoId _ i).owner) = true
      by_cases heq : i = s.nextInfoId
      · rw [heq, upd_self]
        show upd (fun _ => false) sender true sender = true
        rw [upd_self]
      · rw [upd_other _ _ _ _ heq]
        have : i < s.nextInfoId := by
          have : i < s.nextInfoId + 1 := hi
          omega
        exact h i h0 this
  | purchaseInfo sender value infoId =>
    rcases purchaseInfo_cases s sender value infoId with ⟨e, he⟩ | ⟨_, hok⟩
    · rw [execOp_eq_of_errorV2 s (.purchaseInfo sender value infoId) e he]; exact h
    · rw [execOp_eq_of_okV2 s (.purchaseInfo sender value infoId) _ hok]
      intro i h0 hi
      show ((upd s.infoItems infoId _ i).hasAccess (upd s.infoItems infoId _ i).owner) = true
      by_cases heq : i = infoId
      · rw [heq, upd_self]
        exact h infoId (by omega) (by rw [heq] at hi; exact hi)
      · rw [upd_other _ _ _ _ heq]
        exact h i h0 hi
  | grantAccess sender infoId buyer =>
    rcases grantAccess_casesV2 s sender infoId buyer with ⟨e, he⟩ | ⟨_, hok⟩
    · rw [execOp_eq_of_errorV2 s (.grantAccess sender infoId buyer) e he]; exact h
    · rw [execOp_eq_of_okV2 s (.grantAccess sender infoId buyer) _ hok]
      intro i h0 hi
      show ((upd s.infoItems infoId _ i).hasAccess (upd s.infoItems infoId _ i).owner) = true
      by_cases heq : i = infoId
      · rw [heq, upd_self]
        show upd (s.infoItems infoId).hasAccess buyer true (s.infoItems infoId).owner = true
        by_cases hob : (s.infoItems infoId).owner = buyer
        · rw [hob, upd_self]
        · rw [upd_other _ _ _ _ hob]
          exact h infoId (by omega) (by rw [heq] at hi; exact hi)
      · rw [upd_other _ _ _ _ heq]
        exact h i h0 hi
  | updatePrice sender infoId newPrice =>
    rcases updatePrice_cases s sender infoId newPrice with ⟨e, he⟩ | ⟨_, hok⟩
    · rw [execOp_eq_of_errorV2 s (.updatePrice sender infoId newPrice) e he]; exact h
    · rw [execOp_eq_of_okV2 s (.updatePrice sender infoId newPrice) _ hok]
      intro i h0 hi
      show ((upd s.infoItems infoId _ i).hasAccess (upd s.infoItems infoId _ i).owner) = true
      by_cases heq : i = infoId
      · rw [heq, upd_self]
        exact h infoId (by omega) (by rw [heq] at hi; exact hi)
      · rw [upd_other _ _ _ _ heq]
        exact h i h0 hi
  | deactivateInfo sender infoId =>
    rcases deactivateInfo_casesV2 s sender infoId with ⟨e, he⟩ | ⟨_, hok⟩
    · rw [execOp_eq_of_errorV2 s (.deactivateInfo sender infoId) e he]; exact h
    · rw [execOp_eq_of_okV2 s (.deactivateInfo sender infoId) _ hok]
      intro i h0 hi
      show ((upd s.infoItems infoId _ i).hasAccess (upd s.infoItems infoId _ i).owner) = true
      by_cases heq : i = infoId
      · rw [heq, upd_self]
        exact h infoId (by omega) (by rw [heq] at hi; exact hi)
      · rw [upd_other _ _ _ _ heq]
        exact h i h0 hi

/-- In every reachable state of the plaintext-price contract, the owner of
every existing item holds an access grant. -/
theorem reachable_ownerAccess (s : State) (hr : Reachable s) :
    ∀ i, 0 < i → i < s.nextInfoId →
      (s.infoItems i).hasAccess (s.infoItems i).owner = true := by
  obtain ⟨ops, rfl⟩ := hr
  refine exec_preserveV2
    (fun t => ∀ i, 0 < i → i < t.nextInfoId →
      (t.infoItems i).hasAccess (t.infoItems i).owner = true)
    ownerAccess_execOp ops initState ?_
  intro i h0 hi
  simp [initState] at hi
  omega

/-- Once an existing item of the plaintext-price contract is inactive, no
single call reactivates it (and the item keeps existing). -/
theorem inactive_persists_execOpV2 (infoId : Nat) (s : State) (op : Op)
    (h : infoId < s.nextInfoId ∧ (s.infoItems infoId).isActive = false) :
    infoId < (execOp s op).nextInfoId ∧
      ((execOp s op).infoItems infoId).isActive = false := by
  obtain ⟨hlt, hin⟩ := h
  cases op with
  | createInfo sender title info encOwner price time =>
    rcases createInfo_cases s sender title info encOwner price time with
      ⟨e, he⟩ | ⟨_, _, _, hok⟩
    · rw [execOp_eq_of_errorV2 s (.createInfo sender title info encOwner price time) e he]
      exact ⟨hlt, hin⟩
    · rw [execOp_eq_of_okV2 s (.createInfo sender title info encOwner price time) _ hok]
      refine ⟨by show infoId < s.nextInfoId + 1; omega, ?_⟩
      show (upd s.infoItems s.nextInfoId _ infoId).isActive = false
      rw [upd_other _ _ _ _ (by omega)]
      exact hin
  | purchaseInfo sender value infoId' =>
    rcases purchaseInfo_cases s sender value infoId' with ⟨e, he⟩ | ⟨_, hok⟩
    · rw [execOp_eq_of_errorV2 s (.purchaseInfo sender value infoId') e he]
      exact ⟨hlt, hin⟩
    · rw [execOp_eq_of_okV2 s (.purchaseInfo sender value infoId') _ hok]
      refine ⟨hlt, ?_⟩
      show (upd s.infoItems infoId' _ infoId).isActive = false
      by_cases heq : infoId = infoId'
      · rw [heq, upd_self]
        show (s.infoItems infoId').isActive = false
        rw [← heq]
        exact hin
      · rw [upd_other _ _ _ _ heq]
        exact hin
  | grantAccess sender infoId' buyer =>
    rcases grantAccess_casesV2 s sender infoId' buyer with ⟨e, he⟩ | ⟨_, hok⟩
    · rw [execOp_eq_of_errorV2 s (.grantAccess sender infoId' buyer) e he]
      exact ⟨hlt, hin⟩
    · rw [execOp_eq_of_okV2 s (.grantAccess sender infoId' buyer) _ hok]
      refine ⟨hlt, ?_⟩
      show (upd s.infoItems infoId' _ infoId).isActive = false
      by_cases heq : infoId = infoId'
      · rw [heq, upd_self]
        show (s.infoItems infoId').isActive = false
        rw [← heq]
        exact hin
      · rw [upd_other _ _ _ _ heq]
        exact hin
  | updatePrice sender infoId' newPrice =>
    rcases updatePrice_cases s sender infoId' newPrice with ⟨e, he⟩ | ⟨_, hok⟩
    · rw [execOp_eq_of_errorV2 s (.updatePrice sender infoId' newPrice) e he]
      exact ⟨hlt, hin⟩
    · rw [execOp_eq_of_okV2 s (.updatePrice sender infoId' newPrice) _ hok]
      refine ⟨hlt, ?_⟩
      show (upd s.infoItems infoId' _ infoId).isActive = false
      by_cases heq : infoId = infoId'
      · rw [heq, upd_self]
        show (s.infoItems infoId').isActive = false
        rw [← heq]
        exact hin
      · rw [upd_other _ _ _ _ heq]
        exact hin
  | deactivateInfo sender infoId' =>
    rcases deactivateInfo_casesV2 s sender infoId' with ⟨e, he⟩ | ⟨_, hok⟩
    · rw [execOp_eq_of_errorV2 s (.deactivateInfo sender infoId') e he]
      exact ⟨hlt, hin⟩
    · rw [execOp_eq_of_okV2 s (.deactivateInfo sender infoId') _ hok]
      refine ⟨hlt, ?_⟩
      show (upd s.infoItems infoId' _ infoId).isActive = false
      by_cases heq : infoId = infoId'
      · rw [heq, upd_self]
      · rw [upd_other _ _ _ _ heq]
        exact hin

end InfoTradeV2

namespace InfoTrade

/-- C10: In every reachable state of the escrow contract the ETH balance
splits exactly into retained platform fees, one item price per pending
request, and the accumulated overpayment surplus; consequently the surplus
is never drawn on by `grantAccess` (which distributes only the price),
`denyAccess` (which refunds only the price) or `withdrawPlatformFees`
(which transfers only `platformBalance`), and it remains in the contract
forever. -/
theorem escrow_conservation_surplus_locked (s : State) (hr : Reachable s) :
    s.contractBalance = s.platformBalance + pendingSum s + s.totalSurplus ∧
    s.totalSurplus ≤ s.contractBalance := by
  have hinv := reachable_inv s hr
  refine ⟨hinv.conservation, ?_⟩
  have := hinv.conservation
  omega

/-- Witness for C10 at a reachable state with a strictly positive surplus
(item price 100 wei, buyer escrowed 101 wei, request approved). -/
theorem escrow_conservation_surplus_locked_witness :
    exApproved.contractBalance
        = exApproved.platformBalance + pendingSum exApproved + exApproved.totalSurplus ∧
      exApproved.totalSurplus ≤ exApproved.contractBalance :=
  escrow_conservation_surplus_locked exApproved ⟨0, _, rfl⟩

/-- C1 counterexample: the claim that `grantAccess` distributes the buyer's
full escrowed payment fails when the buyer overpaid.  Here item 1 costs 100
wei, buyer 2 escrowed 101 wei (the whole contract balance), and approval
distributes fee 2 to the platform plus 98 to the seller — 100 wei in total,
not the 101 wei escrowed. -/
theorem grantAccess_overpayment_not_fully_distributed :
    exPend.contractBalance = 101 ∧
    exPend.platformBalance = 0 ∧ exPend.payouts 1 = 0 ∧
    (exApproved.purchaseRequests 1 2).isApproved = true ∧
    exApproved.platformBalance = 2 ∧ exApproved.payouts 1 = 98 ∧
    2 + 98 = 100 ∧ (100 : Nat) ≠ 101 := by
  refine ⟨by decide, by decide, by decide, by decide, by decide, by decide, by decide, by decide⟩

/-- C1 (amended): for every approved request on an item with price `p`,
`grantAccess` computes `fee = p * 2 / 100` and `sellerAmount = p - fee`,
adds exactly `fee` to `platformBalance` and transfers exactly
`sellerAmount` to the seller, so `fee + sellerAmount = p` — the item price,
which equals the buyer's escrowed payment exactly when the buyer escrowed
exactly the price; any overpayment above the price is not distributed. -/
theorem grantAccess_distributes_item_price (s : State) (sender infoId buyer : Nat)
    (hr : Reachable s)
    (hsel : (s.infoItems infoId).seller = sender)
    (hex : infoExists s infoId)
    (hpend : (s.purchaseRequests infoId buyer).isPending = true) :
    grantAccess s sender infoId buyer = .ok (grantResult s sender infoId buyer) ∧
    (grantResult s sender infoId buyer).platformBalance
      = s.platformBalance + (s.infoItems infoId).price * PLATFORM_FEE_PERCENT / 100 ∧
    (grantResult s sender infoId buyer).payouts sender
      = s.payouts sender + ((s.infoItems infoId).price
          - (s.infoItems infoId).price * PLATFORM_FEE_PERCENT / 100) ∧
    (s.infoItems infoId).price * PLATFORM_FEE_PERCENT / 100
        + ((s.infoItems infoId).price
            - (s.infoItems infoId).price * PLATFORM_FEE_PERCENT / 100)
      = (s.infoItems infoId).price ∧
    ((grantResult s sender infoId buyer).purchaseRequests infoId buyer).isApproved = true ∧
    ((grantResult s sender infoId buyer).purchaseRequests infoId buyer).isPending = false := by
  have hinv := reachable_inv s hr
  have hfee := fee_le_price (s.infoItems infoId).price
  have hple : (s.infoItems infoId).price ≤ pendingSum s := by
    have hmem := hinv.pending_mem infoId buyer hpend
    have := pendingTerm_le_pendingSum s (infoId, buyer) hmem
    unfold pendingTerm at this
    rw [if_pos hpend] at this
    exact this
  have hcons := hinv.conservation
  have hbal : (s.infoItems infoId).price
      - (s.infoItems infoId).price * PLATFORM_FEE_PERCENT / 100
      ≤ s.contractBalance := by omega
  have hbal' : (s.infoItems infoId).price
      - (s.infoItems infoId).price * PLATFORM_FEE_PERCENT / 100
      ≤ (grantApply s infoId buyer).contractBalance := hbal
  have hok : grantAccess s sender infoId buyer = .ok (grantResult s sender infoId buyer) := by
    unfold grantAccess transfer
    rw [if_neg (not_not_intro hsel), if_neg (not_not_intro hex),
      if_neg (not_not_intro hpend), if_pos hbal']
    rfl
  refine ⟨hok, rfl, ?_, by omega, ?_, ?_⟩
  · show upd (grantApply s infoId buyer).payouts sender
      ((grantApply s infoId buyer).payouts sender
        + ((s.infoItems infoId).price
            - (s.infoItems infoId).price * PLATFORM_FEE_PERCENT / 100)) sender
      = s.payouts sender + ((s.infoItems infoId).price
          - (s.infoItems infoId).price * PLATFORM_FEE_PERCENT / 100)
    rw [upd_self]
    rfl
  · show ((upd2 s.purchaseRequests infoId buyer
      { s.purchaseRequests infoId buyer with isPending := false, isApproved := true }
      infoId buyer)).isApproved = true
    rw [upd2_self]
  · show ((upd2 s.purchaseRequests infoId buyer
      { s.purchaseRequests infoId buyer with isPending := false, isApproved := true }
      infoId buyer)).isPending = false
    rw [upd2_self]

/-- Witness for C1's amended theorem on the concrete pending request of
`exPend` (price 100 wei, escrowed 101 wei). -/
theorem grantAccess_distributes_item_price_witness :
    grantAccess exPend 1 1 2 = .ok (grantResult exPend 1 1 2) ∧
    (grantResult exPend 1 1 2).platformBalance
      = exPend.platformBalance + (exPend.infoItems 1).price * PLATFORM_FEE_PERCENT / 100 ∧
    (grantResult exPend 1 1 2).payouts 1
      = exPend.payouts 1 + ((exPend.infoItems 1).price
          - (exPend.infoItems 1).price * PLATFORM_FEE_PERCENT / 100) ∧
    (exPend.infoItems 1).price * PLATFORM_FEE_PERCENT / 100
        + ((exPend.infoItems 1).price
            - (exPend.infoItems 1).price * PLATFORM_FEE_PERCENT / 100)
      = (exPend.infoItems 1).price ∧
    ((grantResult exPend 1 1 2).purchaseRequests 1 2).isApproved = true ∧
    ((grantResult exPend 1 1 2).purchaseRequests 1 2).isPending = false :=
  grantAccess_distributes_item_price exPend 1 1 2 ⟨0, _, rfl⟩
    (by decide) (by decide) (by decide)

end InfoTrade

namespace InfoTrade

/-- C2 counterexample: buyer 2 escrowed 101 wei on item 1 (price 100); the
denial refunds only 100 wei, not the full escrowed payment; and after a new
paid request the same pair's request is later approved, so denial is not a
terminal bar on approval. -/
theorem denyAccess_overpayment_refund_shortfall :
    exPend.contractBalance = 101 ∧ exPend.payouts 2 = 0 ∧
    exDenied.payouts 2 = 100 ∧ (100 : Nat) ≠ 101 ∧
    (exDenied.purchaseRequests 1 2).isPending = false ∧
    (exDenied.purchaseRequests 1 2).isApproved = false ∧
    (exReapproved.purchaseRequests 1 2).isApproved = true := by
  refine ⟨by decide, by decide, by decide, by decide, by decide, by decide, by decide⟩

/-- C2 (amended): for every pending request, `denyAccess` by the item's
seller resolves the request unapproved and refunds exactly the item's price
to the requester (the full escrowed payment exactly when the requester paid
exactly the price); and as long as the requester submits no new
`requestPurchase` for this item, the request can never become approved. -/
theorem denyAccess_refunds_price_stays_unapproved
    (s : State) (sender infoId buyer : Nat) (ops : List Op)
    (hr : Reachable s)
    (hsel : (s.infoItems infoId).seller = sender)
    (hex : infoExists s infoId)
    (hpend : (s.purchaseRequests infoId buyer).isPending = true)
    (hops : ∀ op ∈ ops, requestsPair op infoId buyer = false) :
    denyAccess s sender infoId buyer = .ok (denyResult s infoId buyer) ∧
    (denyResult s infoId buyer).payouts buyer
      = s.payouts buyer + (s.infoItems infoId).price ∧
    ((denyResult s infoId buyer).purchaseRequests infoId buyer).isPending = false ∧
    ((denyResult s infoId buyer).purchaseRequests infoId buyer).isApproved = false ∧
    ((exec (denyResult s infoId buyer) ops).purchaseRequests infoId buyer).isPending
      = false ∧
    ((exec (denyResult s infoId buyer) ops).purchaseRequests infoId buyer).isApproved
      = false := by
  have hinv := reachable_inv s hr
  have hple : (s.infoItems infoId).price ≤ pendingSum s := by
    have hmem := hinv.pending_mem infoId buyer hpend
    have := pendingTerm_le_pendingSum s (infoId, buyer) hmem
    unfold pendingTerm at this
    rw [if_pos hpend] at this
    exact this
  have hcons := hinv.conservation
  have hbal : (s.infoItems infoId).price ≤ (denyApply s infoId buyer).contractBalance := by
    show (s.infoItems infoId).price ≤ s.contractBalance
    omega
  have hok : denyAccess s sender infoId buyer = .ok (denyResult s infoId buyer) := by
    unfold denyAccess transfer
    rw [if_neg (not_not_intro hsel), if_neg (not_not_intro hex),
      if_neg (not_not_intro hpend), if_pos hbal]
    rfl
  have hres : ((denyResult s infoId buyer).purchaseRequests infoId buyer).isPending
        = false ∧
      ((denyResult s infoId buyer).purchaseRequests infoId buyer).isApproved = false := by
    constructor
    · show ((upd2 s.purchaseRequests infoId buyer
        { s.purchaseRequests infoId buyer with isPending := false, isApproved := false }
        infoId buyer)).isPending = false
      rw [upd2_self]
    · show ((upd2 s.purchaseRequests infoId buyer
        { s.purchaseRequests infoId buyer with isPending := false, isApproved := false }
        infoId buyer)).isApproved = false
      rw [upd2_self]
  have hpersist := exec_preserve_cond
    (fun t => (t.purchaseRequests infoId buyer).isPending = false ∧
      (t.purchaseRequests infoId buyer).isApproved = false)
    (fun op => requestsPair op infoId buyer = false)
    (fun t op hq ht => resolved_persists_execOp infoId buyer t op hq ht)
    ops hops (denyResult s infoId buyer) hres
  refine ⟨hok, ?_, hres.1, hres.2, hpersist.1, hpersist.2⟩
  show upd (denyApply s infoId buyer).payouts buyer
      ((denyApply s infoId buyer).payouts buyer + (s.infoItems infoId).price) buyer
    = s.payouts buyer + (s.infoItems infoId).price
  rw [upd_self]
  rfl

/-- Witness for C2's amended theorem: the overpaid pending request of
`exPend` is denied, then the seller attempts a grant (which is not a new
request by the buyer). -/
theorem denyAccess_refunds_price_stays_unapproved_witness :
    denyAccess exPend 1 1 2 = .ok (denyResult exPend 1 2) ∧
    (denyResult exPend 1 2).payouts 2
      = exPend.payouts 2 + (exPend.infoItems 1).price ∧
    ((denyResult exPend 1 2).purchaseRequests 1 2).isPending = false ∧
    ((denyResult exPend 1 2).purchaseRequests 1 2).isApproved = false ∧
    ((exec (denyResult exPend 1 2) [.grantAccess 1 1 2]).purchaseRequests 1 2).isPending
      = false ∧
    ((exec (denyResult exPend 1 2) [.grantAccess 1 1 2]).purchaseRequests 1 2).isApproved
      = false :=
  denyAccess_refunds_price_stays_unapproved exPend 1 1 2 [.grantAccess 1 1 2]
    ⟨0, _, rfl⟩ (by decide) (by decide) (by decide) (by decide)

/-- C3 counterexample: the request of pair (item 1, buyer 2) is resolved by
a denial (pending and approved both false), yet a later `requestPurchase`
by the same buyer makes exactly that pair's request pending again — a
resolved request is not terminal for the pair. -/
theorem denied_request_reopened_concrete :
    (exDenied.purchaseRequests 1 2).isPending = false ∧
    (exDenied.purchaseRequests 1 2).isApproved = false ∧
    (exReopened.purchaseRequests 1 2).isPending = true := by
  refine ⟨by decide, by decide, by decide⟩

/-- C3 (amended): at most one outstanding request exists per (item,
requester) pair — while the pair's request is pending (or approved) a second
`requestPurchase` reverts and mutates nothing — and an approved request is
terminal: it stays approved and never pending under every later call.  A
denied request, however, is not terminal: a new paid `requestPurchase` may
make the same pair pending again. -/
theorem pending_unique_and_approved_terminal
    (s : State) (infoId buyer value time : Nat)
    (hpend : (s.purchaseRequests infoId buyer).isPending = true)
    (s2 : State) (infoId2 buyer2 : Nat) (ops : List Op)
    (hr2 : Reachable s2)
    (happr : (s2.purchaseRequests infoId2 buyer2).isApproved = true) :
    execOp s (.requestPurchase buyer value infoId time) = s ∧
    ((exec s2 ops).purchaseRequests infoId2 buyer2).isApproved = true ∧
    ((exec s2 ops).purchaseRequests infoId2 buyer2).isPending = false := by
  have hdup : execOp s (.requestPurchase buyer value infoId time) = s := by
    rcases requestPurchase_cases s buyer value infoId time with
      ⟨e, he⟩ | ⟨_, _, _, _, hpend', _, _⟩
    · exact execOp_eq_of_error s (.requestPurchase buyer value infoId time) e he
    · rw [hpend] at hpend'
      cases hpend'
  have hnp : (s2.purchaseRequests infoId2 buyer2).isPending = false := by
    cases hp : (s2.purchaseRequests infoId2 buyer2).isPending with
    | false => rfl
    | true =>
      have := (reachable_inv s2 hr2).mutex infoId2 buyer2 hp
      rw [happr] at this
      cases this
  have hpersist := exec_preserve
    (fun t => (t.purchaseRequests infoId2 buyer2).isApproved = true ∧
      (t.purchaseRequests infoId2 buyer2).isPending = false)
    (fun t op ht => approved_persists_execOp infoId2 buyer2 t op ht)
    ops s2 ⟨happr, hnp⟩
  exact ⟨hdup, hpersist.1, hpersist.2⟩

/-- Witness for C3's amended theorem: a duplicate request on the pending
request of `exPend` reverts, and the approved request of `exApproved`
survives a denial attempt followed by a fresh request attempt. -/
theorem pending_unique_and_approved_terminal_witness :
    execOp exPend (.requestPurchase 2 100 1 5) = exPend ∧
    ((exec exApproved [.denyAccess 1 1 2, .requestPurchase 2 100 1 6]).purchaseRequests
      1 2).isApproved = true ∧
    ((exec exApproved [.denyAccess 1 1 2, .requestPurchase 2 100 1 6]).purchaseRequests
      1 2).isPending = false :=
  pending_unique_and_approved_terminal exPend 1 2 100 5 (by decide) exApproved 1 2
    [.denyAccess 1 1 2, .requestPurchase 2 100 1 6] ⟨0, _, rfl⟩ (by decide)

end InfoTrade

namespace InfoTrade

/-- C6 counterexample: an underpaid request on an existing active item does
not always revert with the payment error — when the caller is the item's
own seller, the self-purchase guard fires first, so the revert carries the
state error "Cannot purchase own info" instead (item 1 costs 100 wei; its
seller, address 1, attaches only 50 wei). -/
theorem seller_underpaid_request_not_payment_error :
    infoExists exAfterUpload 1 ∧
    (exAfterUpload.infoItems 1).isActive = true ∧
    50 < (exAfterUpload.infoItems 1).price ∧
    step exAfterUpload (.requestPurchase 1 50 1 1) = .error "Cannot purchase own info" ∧
    "Cannot purchase own info" ≠ "Insufficient payment" := by
  refine ⟨by decide, by decide, by decide, rfl, by decide⟩

/-- C6 (amended): every `requestPurchase` on an existing active item whose
attached payment is strictly below the price reverts and mutates no state;
when the caller is not the item's seller the revert carries the payment
error "Insufficient payment" (a seller's own underpaid call also reverts
unchanged, but with the self-purchase state error). -/
theorem underpaid_request_reverts_unchanged
    (s : State) (sender value infoId time : Nat)
    (hex : infoExists s infoId)
    (hact : (s.infoItems infoId).isActive = true)
    (hns : sender ≠ (s.infoItems infoId).seller)
    (hval : value < (s.infoItems infoId).price) :
    requestPurchase s sender value infoId time = .error "Insufficient payment" ∧
    execOp s (.requestPurchase sender value infoId time) = s := by
  have herr : requestPurchase s sender value infoId time
      = .error "Insufficient payment" := by
    unfold requestPurchase
    rw [if_neg (not_not_intro hex), if_neg (by simp [hact]),
      if_neg hns, if_pos hval]
  exact ⟨herr, execOp_eq_of_error s (.requestPurchase sender value infoId time) _ herr⟩

/-- Witness for C6's amended theorem: non-seller 2 attaches 50 wei to a
request on item 1 (price 100 wei). -/
theorem underpaid_request_reverts_unchanged_witness :
    requestPurchase exAfterUpload 2 50 1 1 = .error "Insufficient payment" ∧
    execOp exAfterUpload (.requestPurchase 2 50 1 1) = exAfterUpload :=
  underpaid_request_reverts_unchanged exAfterUpload 2 50 1 1
    (by decide) (by decide) (by decide) (by decide)

/-- C7: when the deploying owner calls `withdrawPlatformFees` on a reachable
state with a positive fee balance, the whole balance is transferred to the
owner and reset to zero, and an immediately repeated call reverts because
the balance is now zero. -/
theorem withdrawPlatformFees_drains_then_reverts (s : State)
    (hr : Reachable s) (hpos : 0 < s.platformBalance) :
    withdrawPlatformFees s s.owner = .ok (withdrawResult s) ∧
    (withdrawResult s).platformBalance = 0 ∧
    (withdrawResult s).payouts s.owner = s.payouts s.owner + s.platformBalance ∧
    (withdrawResult s).contractBalance = s.contractBalance - s.platformBalance ∧
    withdrawPlatformFees (withdrawResult s) (withdrawResult s).owner
      = .error "No fees to withdraw" := by
  have hcons := (reachable_inv s hr).conservation
  have hbal : s.platformBalance ≤ ({ s with platformBalance := 0 } : State).contractBalance := by
    show s.platformBalance ≤ s.contractBalance
    omega
  have hok : withdrawPlatformFees s s.owner = .ok (withdrawResult s) := by
    unfold withdrawPlatformFees transfer
    rw [if_neg (not_not_intro rfl), if_neg (by omega), if_pos hbal]
    rfl
  refine ⟨hok, rfl, ?_, rfl, ?_⟩
  · show upd s.payouts s.owner (s.payouts s.owner + s.platformBalance) s.owner
      = s.payouts s.owner + s.platformBalance
    rw [upd_self]
  · unfold withdrawPlatformFees
    rw [if_neg (not_not_intro rfl),
      if_pos (show (withdrawResult s).platformBalance = 0 from rfl)]

/-- Witness for C7 on the reachable state `exApproved`, whose platform
balance holds the 2-wei fee of the approved sale. -/
theorem withdrawPlatformFees_drains_then_reverts_witness :
    withdrawPlatformFees exApproved exApproved.owner = .ok (withdrawResult exApproved) ∧
    (withdrawResult exApproved).platformBalance = 0 ∧
    (withdrawResult exApproved).payouts exApproved.owner
      = exApproved.payouts exApproved.owner + exApproved.platformBalance ∧
    (withdrawResult exApproved).contractBalance
      = exApproved.contractBalance - exApproved.platformBalance ∧
    withdrawPlatformFees (withdrawResult exApproved) (withdrawResult exApproved).owner
      = .error "No fees to withdraw" :=
  withdrawPlatformFees_drains_then_reverts exApproved ⟨0, _, rfl⟩ (by decide)

end InfoTrade

/-- C4 counterexample: address 99 never interacted with the contract — it is
neither the seller of item 1 nor a grantee (no approved request) — yet
`getEncryptedInfo` returns the stored handle 7 to it instead of reverting
with an authorization error. -/
theorem getEncryptedInfo_no_auth_revert :
    (InfoTrade.exAfterUpload.infoItems 1).seller ≠ 99 ∧
    (InfoTrade.exAfterUpload.purchaseRequests 1 99).isApproved = false ∧
    InfoTrade.getEncryptedInfo InfoTrade.exAfterUpload 99 1 = .ok 7 := by
  refine ⟨by decide, by decide, rfl⟩

/-- C4 (amended): the read-encrypted-handle operations check only that the
item exists: `getEncryptedInfo` (escrow variant) and `getEncryptedOwner`
(plaintext-price variant) return the stored opaque handle to every caller,
owner or not, grantee or not; no contract-level authorization error is
raised (decryption rights are managed off-contract by the external FHE
access-control list). -/
theorem encrypted_handle_returned_to_any_caller
    (s : InfoTrade.State) (caller infoId : Nat)
    (hex : InfoTrade.infoExists s infoId)
    (s2 : InfoTradeV2.State) (caller2 infoId2 : Nat)
    (hex2 : InfoTradeV2.validId s2 infoId2) :
    InfoTrade.getEncryptedInfo s caller infoId
        = .ok (s.infoItems infoId).encryptedInfo ∧
    InfoTradeV2.getEncryptedOwner s2 caller2 infoId2
        = .ok (s2.infoItems infoId2).encryptedOwner := by
  constructor
  · unfold InfoTrade.getEncryptedInfo
    rw [if_neg (not_not_intro hex)]
  · unfold InfoTradeV2.getEncryptedOwner
    rw [if_neg (not_not_intro hex2)]

/-- Witness for C4's amended theorem with stranger callers 99 and 42. -/
theorem encrypted_handle_returned_to_any_caller_witness :
    InfoTrade.getEncryptedInfo InfoTrade.exAfterUpload 99 1
        = .ok (InfoTrade.exAfterUpload.infoItems 1).encryptedInfo ∧
    InfoTradeV2.getEncryptedOwner InfoTradeV2.exCreated 42 1
        = .ok (InfoTradeV2.exCreated.infoItems 1).encryptedOwner :=
  encrypted_handle_returned_to_any_caller InfoTrade.exAfterUpload 99 1 (by decide)
    InfoTradeV2.exCreated 42 1 (by decide)

/-- C5: in both contract variants, an existing item that has become inactive
stays inactive under every subsequent call sequence, and a freshly created
item starts active — so each item's `isActive` flag changes value at most
once over the contract's lifetime, and only from `true` to `false`. -/
theorem isActive_monotone_true_to_false
    (s : InfoTrade.State) (ops : List InfoTrade.Op) (infoId : Nat)
    (hex : infoId < s.nextInfoId)
    (hin : (s.infoItems infoId).isActive = false)
    (s2 : InfoTradeV2.State) (ops2 : List InfoTradeV2.Op) (infoId2 : Nat)
    (hex2 : infoId2 < s2.nextInfoId)
    (hin2 : (s2.infoItems infoId2).isActive = false)
    (s3 : InfoTrade.State) (sender encInfo price time : Nat) :
    ((InfoTrade.exec s ops).infoItems infoId).isActive = false ∧
    ((InfoTradeV2.exec s2 ops2).infoItems infoId2).isActive = false ∧
    ((InfoTrade.uploadApply s3 sender encInfo price time).infoItems
      s3.nextInfoId).isActive = true := by
  refine ⟨?_, ?_, ?_⟩
  · exact (InfoTrade.exec_preserve
      (fun t => infoId < t.nextInfoId ∧ (t.infoItems infoId).isActive = false)
      (fun t op ht => InfoTrade.inactive_persists_execOp infoId t op ht)
      ops s ⟨hex, hin⟩).2
  · exact (InfoTradeV2.exec_preserveV2
      (fun t => infoId2 < t.nextInfoId ∧ (t.infoItems infoId2).isActive = false)
      (fun t op ht => InfoTradeV2.inactive_persists_execOpV2 infoId2 t op ht)
      ops2 s2 ⟨hex2, hin2⟩).2
  · show (upd s3.infoItems s3.nextInfoId
      { encryptedInfo := encInfo, seller := sender, price := price,
        isActive := true, createdAt := time } s3.nextInfoId).isActive = true
    rw [upd_self]

/-- Witness for C5 on concrete deactivated items of both variants, with a
request attempt and a price update attempted afterwards. -/
theorem isActive_monotone_true_to_false_witness :
    ((InfoTrade.exec InfoTrade.exDeactivated
        [.requestPurchase 2 100 1 2]).infoItems 1).isActive = false ∧
    ((InfoTradeV2.exec InfoTradeV2.exCreatedDeactivated
        [.updatePrice 1 1 500]).infoItems 1).isActive = false ∧
    ((InfoTrade.uploadApply InfoTrade.exDeactivated 3 8 55 4).infoItems
      InfoTrade.exDeactivated.nextInfoId).isActive = true :=
  isActive_monotone_true_to_false InfoTrade.exDeactivated [.requestPurchase 2 100 1 2] 1
    (by decide) (by decide)
    InfoTradeV2.exCreatedDeactivated [.updatePrice 1 1 500] 1
    (by decide) (by decide)
    InfoTrade.exDeactivated 3 8 55 4

namespace InfoTradeV2

/-- C8: in every reachable state of the plaintext-price contract, the owner
of an existing item holds an access grant (set at creation, never revoked)
and so always reads the item's content via `getInfoContent`, regardless of
purchase or active state; while every caller without an access grant — in
particular any non-owner non-grantee — always gets the authorization
revert. -/
theorem owner_always_reads_nongrantee_never (s : State) (infoId caller : Nat)
    (hr : Reachable s) (hid : validId s infoId)
    (hc : (s.infoItems infoId).hasAccess caller = false) :
    (s.infoItems infoId).hasAccess (s.infoItems infoId).owner = true ∧
    getInfoContent s (s.infoItems infoId).owner infoId = .ok (s.infoItems infoId).info ∧
    caller ≠ (s.infoItems infoId).owner ∧
    getInfoContent s caller infoId = .error "No access to this info" := by
  have howner := reachable_ownerAccess s hr infoId hid.2 hid.1
  refine ⟨howner, ?_, ?_, ?_⟩
  · unfold getInfoContent
    rw [if_neg (not_not_intro hid), if_neg (by simp [howner])]
  · intro hco
    rw [hco] at hc
    rw [howner] at hc
    cases hc
  · unfold getInfoContent
    rw [if_neg (not_not_intro hid), if_pos hc]

/-- Witness for C8 on the created item of `exCreated`, with stranger 2 as
the non-grantee caller. -/
theorem owner_always_reads_nongrantee_never_witness :
    (exCreated.infoItems 1).hasAccess (exCreated.infoItems 1).owner = true ∧
    getInfoContent exCreated (exCreated.infoItems 1).owner 1
      = .ok (exCreated.infoItems 1).info ∧
    (2 : Nat) ≠ (exCreated.infoItems 1).owner ∧
    getInfoContent exCreated 2 1 = .error "No access to this info" :=
  owner_always_reads_nongrantee_never exCreated 1 2 ⟨_, rfl⟩ (by decide) (by decide)

/-- C9: `createInfo` reverts with the matching validation error when the
title is empty, when the content is empty, or when the price is zero (a
`uint256` price is ≤ 0 exactly when it is 0); on success it stores the new
item under the id `nextInfoId` current at the call — recording the caller
as owner — and increments `nextInfoId` by one, which starts at 1 on
deployment and never decreases under any call, so allocated ids are
1, 2, 3, …: sequential, strictly monotonic and unique. -/
theorem createInfo_validates_and_allocates (s : State) (sender : Nat)
    (title info : String) (encOwner price time : Nat) (ops : List Op)
    (htitle : title ≠ "") (hinfo : info ≠ "") (hprice : 0 < price) :
    createInfo s sender "" info encOwner price time = .error "Title cannot be empty" ∧
    createInfo s sender title "" encOwner price time = .error "Info cannot be empty" ∧
    createInfo s sender title info encOwner 0 time
      = .error "Price must be greater than 0" ∧
    createInfo s sender title info encOwner price time
      = .ok (createApply s sender title info encOwner price time) ∧
    (createApply s sender title info encOwner price time).nextInfoId
      = s.nextInfoId + 1 ∧
    ((createApply s sender title info encOwner price time).infoItems
      s.nextInfoId).owner = sender ∧
    ((createApply s sender title info encOwner price time).infoItems
      s.nextInfoId).title = title ∧
    ((createApply s sender title info encOwner price time).infoItems
      s.nextInfoId).price = price ∧
    initState.nextInfoId = 1 ∧
    s.nextInfoId ≤ (exec s ops).nextInfoId := by
  have hok : createInfo s sender title info encOwner price time
      = .ok (createApply s sender title info encOwner price time) := by
    unfold createInfo
    rw [if_neg htitle, if_neg hinfo, if_neg (by omega)]
  have hstore : (createApply s sender title info encOwner price time).infoItems
      s.nextInfoId
      = { title := title, info := info, encryptedOwner := encOwner, price := price,
          isActive := true, owner := sender, createdAt := time,
          hasPurchased := fun _ => false,
          hasAccess := upd (fun _ => false) sender true } := by
    show upd s.infoItems s.nextInfoId _ s.nextInfoId = _
    rw [upd_self]
  refine ⟨?_, ?_, ?_, hok, rfl, ?_, ?_, ?_, rfl, ?_⟩
  · unfold createInfo
    rw [if_pos rfl]
  · unfold createInfo
    rw [if_neg htitle, if_pos rfl]
  · unfold createInfo
    rw [if_neg htitle, if_neg hinfo, if_pos rfl]
  · rw [hstore]
  · rw [hstore]
  · rw [hstore]
  · exact exec_preserveV2 (fun t => s.nextInfoId ≤ t.nextInfoId)
      (fun t op ht => nextInfoId_mono_execOp s.nextInfoId t op ht) ops s (Nat.le_refl _)

/-- Witness for C9: a second item is created on top of `exCreated` by
address 7, then item 1 is deactivated. -/
theorem createInfo_validates_and_allocates_witness :
    createInfo exCreated 7 "" "b" 3 55 9 = .error "Title cannot be empty" ∧
    createInfo exCreated 7 "a" "" 3 55 9 = .error "Info cannot be empty" ∧
    createInfo exCreated 7 "a" "b" 3 0 9 = .error "Price must be greater than 0" ∧
    createInfo exCreated 7 "a" "b" 3 55 9
      = .ok (createApply exCreated 7 "a" "b" 3 55 9) ∧
    (createApply exCreated 7 "a" "b" 3 55 9).nextInfoId = exCreated.nextInfoId + 1 ∧
    ((createApply exCreated 7 "a" "b" 3 55 9).infoItems exCreated.nextInfoId).owner = 7 ∧
    ((createApply exCreated 7 "a" "b" 3 55 9).infoItems exCreated.nextInfoId).title
      = "a" ∧
    ((createApply exCreated 7 "a" "b" 3 55 9).infoItems exCreated.nextInfoId).price
      = 55 ∧
    initState.nextInfoId = 1 ∧
    exCreated.nextInfoId ≤ (exec exCreated [.deactivateInfo 1 1]).nextInfoId :=
  createInfo_validates_and_allocates exCreated 7 "a" "b" 3 55 9 [.deactivateInfo 1 1]
    (by decide) (by decide) (by decide)

end InfoTradeV2
